import Mathlib

/-! # GenerateProject.cpp: directory tree model, flattening helpers, scanner and emitters

A shallow embedding of `src/GenerateProject.cpp`.

* `std::string` is `String`; character positions index `String.data`.
* `std::vector<T>` is `List T`; `push_back` / `emplace_back` / `insert(end, ..)` append at the end.
* `std::string::npos` is `none` of `Option Nat`.
* `std::endl` writes the single character `\n`; an output stream is the `String` written so far.
* The Win32 directory search (`FindFirstFile` / `FindNextFile`) reads a `FileSystem`, a
  function from the search pattern to the sequence of entries the search yields.
* `Folder::Get` recurses without bound in the source; here it takes a recursion budget and
  returns `none` when the budget is exhausted.
-/

namespace GenerateProject

/-! ## Constants -/

/-- The standard path separator on Windows (`PATH_SEPARATOR`). -/
def PATH_SEPARATOR : String := "\\"
/-- The file extension for C++ source files (`CPP_FILE_EXTENSION`). -/
def CPP_FILE_EXTENSION : String := ".cpp"
/-- The file extension for a solution file (`SOLUTION_FILE_EXTENSION`). -/
def SOLUTION_FILE_EXTENSION : String := ".sln"
/-- The file extension for a project file (`PROJECT_FILE_EXTENSION`). -/
def PROJECT_FILE_EXTENSION : String := ".vcxproj"
/-- The file extension for a project filters file (`PROJECT_FILTERS_FILE_EXTENSION`). -/
def PROJECT_FILTERS_FILE_EXTENSION : String := ".vcxproj.filters"
/-- The header extension, the local constant `HEADER_FILE_EXTENSION` of `GetHeaderFiles`. -/
def HEADER_FILE_EXTENSION : String := ".h"

/-! ## `std::string` operations used by the program -/

/-- The index of the last occurrence of `c` in a character sequence, `none` when `c` does not
occur: the list form of `std::string::find_last_of(char)`. -/
def findLastIndex (c : Char) : List Char → Option Nat
  | [] => none
  | x :: xs =>
    match findLastIndex c xs with
    | some i => some (i + 1)
    | none => if x = c then some 0 else none

/-- The method `std::string::find_last_of(char)`; `none` stands for `npos`. -/
def find_last_of (s : String) (c : Char) : Option Nat :=
  findLastIndex c s.data

/-- The method `std::string::substr(pos)`: the characters from position `pos` to the end. -/
def substr (s : String) (pos : Nat) : String :=
  ⟨s.data.drop pos⟩

/-! ## `File` -/

/-- A file on the file system (`class File`). -/
structure File where
  /-- The relative path to the folder containing the file. -/
  RelativeFolderPath : String
  /-- The relative path to the file. -/
  RelativePath : String
  /-- The name of the file, including any extension. -/
  Name : String
deriving DecidableEq, Repr

/-- The constructor `File::File(relative_folder_path, name)`; the test
`relative_folder_path.empty()` is equality with the empty string. -/
def File.create (relative_folder_path name : String) : File :=
  if relative_folder_path = "" then
    { RelativeFolderPath := relative_folder_path, RelativePath := name, Name := name }
  else
    { RelativeFolderPath := relative_folder_path
      RelativePath := relative_folder_path ++ PATH_SEPARATOR ++ name
      Name := name }

/-- The method `File::ExtensionWithLeadingDot`. -/
def File.ExtensionWithLeadingDot (file : File) : String :=
  let FILE_EXTENSION_SEPARATOR : Char := '.'
  match find_last_of file.Name FILE_EXTENSION_SEPARATOR with
  | some last_dot => substr file.Name last_dot
  | none => ""

/-! ## `Folder` -/

/-- A folder on the file system (`class Folder`): its relative path, its subfolders and the
files directly in it. -/
inductive Folder where
  | mk (RelativePath : String) (Subfolders : List Folder) (Files : List File)

/-- The member `Folder::RelativePath`. -/
def Folder.RelativePath : Folder → String
  | .mk p _ _ => p

/-- The member `Folder::Subfolders`. -/
def Folder.Subfolders : Folder → List Folder
  | .mk _ subs _ => subs

/-- The member `Folder::Files`. -/
def Folder.Files : Folder → List File
  | .mk _ _ files => files

/-- The constructor `Folder::Folder(relative_path)`: no files and no subfolders yet. -/
def Folder.create (relative_path : String) : Folder :=
  .mk relative_path [] []

/-- The first loop of `GetHeaderFiles`: push every file whose extension is `.h`. -/
def headerFilesOf (files : List File) : List File :=
  files.foldl
    (fun header_files file =>
      if HEADER_FILE_EXTENSION = file.ExtensionWithLeadingDot then header_files ++ [file]
      else header_files)
    []

/-- The first loop of `GetCppFiles`: push every file whose extension is `.cpp`. -/
def cppFilesOf (files : List File) : List File :=
  files.foldl
    (fun cpp_files file =>
      if CPP_FILE_EXTENSION = file.ExtensionWithLeadingDot then cpp_files ++ [file]
      else cpp_files)
    []

mutual
/-- The method `Folder::GetHeaderFiles`. -/
def Folder.GetHeaderFiles : Folder → List File
  | .mk _ subs files => GetHeaderFilesLoop subs (headerFilesOf files)
/-- The second loop of `GetHeaderFiles`: append the header files of each subfolder. -/
def GetHeaderFilesLoop : List Folder → List File → List File
  | [], header_files => header_files
  | subfolder :: rest, header_files =>
    GetHeaderFilesLoop rest (header_files ++ subfolder.GetHeaderFiles)
end

mutual
/-- The method `Folder::GetCppFiles`. -/
def Folder.GetCppFiles : Folder → List File
  | .mk _ subs files => GetCppFilesLoop subs (cppFilesOf files)
/-- The second loop of `GetCppFiles`: append the `.cpp` files of each subfolder. -/
def GetCppFilesLoop : List Folder → List File → List File
  | [], cpp_files => cpp_files
  | subfolder :: rest, cpp_files =>
    GetCppFilesLoop rest (cpp_files ++ subfolder.GetCppFiles)
end

mutual
/-- The method `Folder::GetAllFolders`. -/
def Folder.GetAllFolders : Folder → List Folder
  | .mk p subs files => GetAllFoldersLoop subs [Folder.mk p subs files]
/-- The loop of `GetAllFolders`: append all folders of each subfolder. -/
def GetAllFoldersLoop : List Folder → List Folder → List Folder
  | [], all_folders => all_folders
  | subfolder :: rest, all_folders =>
    GetAllFoldersLoop rest (all_folders ++ subfolder.GetAllFolders)
end

/-! ## Vocabulary of the specification -/

/-- The name `s` ends in `ending`. -/
def EndsIn (s ending : String) : Prop :=
  ending.data <:+ s.data

instance (s ending : String) : Decidable (EndsIn s ending) :=
  inferInstanceAs (Decidable (ending.data <:+ s.data))

mutual
/-- Every file stored anywhere in a folder tree: the folder's own files, then those of each
subfolder in order. -/
def Folder.allFiles : Folder → List File
  | .mk _ subs files => files ++ allFilesOfList subs
/-- Every file stored anywhere in a list of folder trees. -/
def allFilesOfList : List Folder → List File
  | [] => []
  | subfolder :: rest => subfolder.allFiles ++ allFilesOfList rest
end

mutual
/-- The total number of direct and transitive subfolders of a folder. -/
def Folder.subfolderCount : Folder → Nat
  | .mk _ subs _ => subfolderCountOfList subs
/-- The number of folders in a list of folder trees, each counted with its subfolders. -/
def subfolderCountOfList : List Folder → Nat
  | [] => 0
  | subfolder :: rest => 1 + subfolder.subfolderCount + subfolderCountOfList rest
end

/-! ## Directory search -/

/-- The fields of `WIN32_FIND_DATA` that the program reads. -/
structure FindData where
  /-- The name of the entry. -/
  cFileName : String
  /-- The attribute bits of the entry. -/
  dwFileAttributes : Nat
deriving DecidableEq, Repr

/-- The attribute bit of a directory, `FILE_ATTRIBUTE_DIRECTORY` of `Windows.h`. -/
def FILE_ATTRIBUTE_DIRECTORY : Nat := 16

/-- The test `is_directory` of `Folder::Get`. -/
def FindData.is_directory (file_data : FindData) : Bool :=
  let FILE_ATTRIBUTE_NOT_SET : Nat := 0
  FILE_ATTRIBUTE_NOT_SET != (file_data.dwFileAttributes &&& FILE_ATTRIBUTE_DIRECTORY)

/-- The test `is_abbreviated_directory` of `Folder::Get`: the entry is named `.` or `..`. -/
def FindData.is_abbreviated_directory (file_data : FindData) : Bool :=
  let is_current_directory := decide (file_data.cFileName = ".")
  let is_parent_directory := decide (file_data.cFileName = "..")
  is_current_directory || is_parent_directory

/-- A file system as the directory search sees it: for each search pattern, the sequence of
entries the search yields, the first through `FindFirstFile` and each later one through one
call of `FindNextFile`. The empty sequence is a search that cannot be started (the directory
does not exist or cannot be read). -/
abbrev FileSystem := String → List FindData

/-- The call `FindFirstFile(pattern, &file_data)`: the entries it leaves for `FindNextFile`.
The first entry goes to `file_data`; a search that cannot be started gives the invalid handle,
on which `FindNextFile` fails at once. -/
def FindFirstFile (fs : FileSystem) (pattern : String) : List FindData :=
  match fs pattern with
  | [] => []
  | _ :: remaining => remaining

/-- The loop `while (FindNextFile(search_handle, &file_data))` of `Folder::Get`. Each round
takes the next entry of the search; the loop ends when none is left. `get` is the recursive
call of `Folder::Get`. -/
def GetLoop (get : String → Option Folder) (relative_path : String) :
    List FindData → Folder → Option Folder
  | [], folder => some folder
  | file_data :: search_handle, folder =>
    if file_data.is_directory then
      if file_data.is_abbreviated_directory then
        GetLoop get relative_path search_handle folder
      else
        let subfolder_path := relative_path ++ PATH_SEPARATOR ++ file_data.cFileName
        match get subfolder_path with
        | none => none
        | some subfolder =>
          GetLoop get relative_path search_handle
            (.mk folder.RelativePath (folder.Subfolders ++ [subfolder]) folder.Files)
    else
      GetLoop get relative_path search_handle
        (.mk folder.RelativePath folder.Subfolders
          (folder.Files ++ [File.create folder.RelativePath file_data.cFileName]))

/-- The function `Folder::Get(relative_path)` on a file system, with a budget for the depth
of the recursion: `none` when the budget does not suffice. -/
def Folder.Get (fs : FileSystem) : Nat → String → Option Folder
  | 0, _ => none
  | budget + 1, relative_path =>
    let folder := Folder.create relative_path
    let WILDCARD := "*"
    let find_all_files_and_folders := relative_path ++ PATH_SEPARATOR ++ WILDCARD
    let search_handle := FindFirstFile fs find_all_files_and_folders
    GetLoop (fun subfolder_path => Folder.Get fs budget subfolder_path) relative_path
      search_handle folder

/-! ## Output streams -/

/-- The manipulator `std::endl`. -/
def endl : String := "\n"

/-- A run of `<< text << std::endl` insertions, one per element. -/
def writeLines (lines : List String) : String :=
  String.join (lines.map (fun line => line ++ endl))

mutual
/-- The method `Folder::DebugPrint`, as the text added to standard output. -/
def Folder.DebugPrint : Folder → String
  | .mk p subs files =>
    "RelativePath: " ++ p ++ endl
      ++ "Files: " ++ endl
      ++ String.join (files.map (fun file => "\t" ++ file.RelativePath ++ endl))
      ++ "Subfolders: " ++ endl
      ++ DebugPrintLoop subs
/-- The loop of `DebugPrint` over the subfolders. -/
def DebugPrintLoop : List Folder → String
  | [] => ""
  | subfolder :: rest => subfolder.DebugPrint ++ DebugPrintLoop rest
end

/-! ## The solution file -/

/-- The function `SolutionFile::Write`: the stream after the write. -/
def SolutionFile.Write (project_name : String) (file : String) : String :=
  file ++ writeLines [
    "Microsoft Visual Studio Solution File, Format Version 12.00",
    "# Visual Studio 2013",
    "VisualStudioVersion = 12.0.31101.0",
    "MinimumVisualStudioVersion = 10.0.40219.1",
    "Project(\"\x7b8BC9CEB8-8B4A-11D0-8D11-00A0C91BC942\x7d\") = \"" ++ project_name ++ "\", \"" ++ project_name ++ ".vcxproj\", \"\x7b46D99A72-17AF-4E62-809F-EECB637F6EE1\x7d",
    "EndProject",
    "Global",
    "    GlobalSection(SolutionConfigurationPlatforms) = preSolution",
    "        CommandLineBuild|Win32 = CommandLineBuild|Win32",
    "        Debug|Win32 = Debug|Win32",
    "        Release|Win32 = Release|Win32",
    "    EndGlobalSection",
    "    GlobalSection(ProjectConfigurationPlatforms) = postSolution",
    "        \x7b46D99A72-17AF-4E62-809F-EECB637F6EE1\x7d.CommandLineBuild|Win32.ActiveCfg = Release|Win32",
    "        \x7b46D99A72-17AF-4E62-809F-EECB637F6EE1\x7d.CommandLineBuild|Win32.Build.0 = Release|Win32",
    "        \x7b46D99A72-17AF-4E62-809F-EECB637F6EE1\x7d.Debug|Win32.ActiveCfg = Debug|Win32",
    "        \x7b46D99A72-17AF-4E62-809F-EECB637F6EE1\x7d.Debug|Win32.Build.0 = Debug|Win32",
    "        \x7b46D99A72-17AF-4E62-809F-EECB637F6EE1\x7d.Release|Win32.ActiveCfg = Release|Win32",
    "        \x7b46D99A72-17AF-4E62-809F-EECB637F6EE1\x7d.Release|Win32.Build.0 = Release|Win32",
    "    EndGlobalSection",
    "    GlobalSection(SolutionProperties) = preSolution",
    "        HideSolutionNode = FALSE",
    "    EndGlobalSection",
    "EndGlobal"
  ]

/-! ## The project file -/

/-- The part of the project file before the header files. -/
def ProjectFile.beforeHeaders : String :=
  writeLines [
    "<?xml version=\"1.0\" encoding=\"utf-8\"?>",
    "<Project DefaultTargets=\"Build\" ToolsVersion=\"12.0\" xmlns=\"http://schemas.microsoft.com/developer/msbuild/2003\">",
    "  <ItemGroup Label=\"ProjectConfigurations\">",
    "    <ProjectConfiguration Include=\"Debug|Win32\">",
    "      <Configuration>Debug</Configuration>",
    "      <Platform>Win32</Platform>",
    "    </ProjectConfiguration>",
    "    <ProjectConfiguration Include=\"Release|Win32\">",
    "      <Configuration>Release</Configuration>",
    "      <Platform>Win32</Platform>",
    "    </ProjectConfiguration>",
    "  </ItemGroup>",
    "  <ItemGroup>"
  ]

/-- The line written for one header file. -/
def ProjectFile.ClIncludeLine (header_file : File) : String :=
  "    <ClInclude Include=\"" ++ header_file.RelativePath ++ "\" />" ++ endl

/-- The part of the project file between the header files and the `.cpp` files. -/
def ProjectFile.betweenLists : String :=
  "  </ItemGroup>" ++ endl ++ ("  <ItemGroup>" ++ endl)

/-- The line written for one `.cpp` file. -/
def ProjectFile.ClCompileLine (cpp_file : File) : String :=
  "    <ClCompile Include=\"" ++ cpp_file.RelativePath ++ "\" />" ++ endl

/-- The remainder of the project file. -/
def ProjectFile.remainder (project_name : String) : String :=
  writeLines [
    "  </ItemGroup>",
    "  <ItemGroup>",
    "    <None Include=\"build.bat\" />",
    "  </ItemGroup>",
    "  <PropertyGroup Label=\"Globals\">",
    "    <ProjectGuid>\x7b46D99A72-17AF-4E62-809F-EECB637F6EE1\x7d</ProjectGuid>",
    "    <Keyword>MakeFileProj</Keyword>",
    "    <ProjectName>" ++ project_name ++ "</ProjectName>",
    "  </PropertyGroup>",
    "  <Import Project=\"$(VCTargetsPath)\\Microsoft.Cpp.Default.props\" />",
    "  <PropertyGroup Condition=\"\x27$(Configuration)|$(Platform)\x27==\x27Debug|Win32\x27\" Label=\"Configuration\">",
    "    <ConfigurationType>Makefile</ConfigurationType>",
    "    <UseDebugLibraries>true</UseDebugLibraries>",
    "    <PlatformToolset>v120</PlatformToolset>",
    "  </PropertyGroup>",
    "  <PropertyGroup Condition=\"\x27$(Configuration)|$(Platform)\x27==\x27Release|Win32\x27\" Label=\"Configuration\">",
    "    <ConfigurationType>Makefile</ConfigurationType>",
    "    <UseDebugLibraries>false</UseDebugLibraries>",
    "    <PlatformToolset>v120</PlatformToolset>",
    "  </PropertyGroup>",
    "  <Import Project=\"$(VCTargetsPath)\\Microsoft.Cpp.props\" />",
    "  <ImportGroup Label=\"ExtensionSettings\">",
    "  </ImportGroup>",
    "  <ImportGroup Label=\"PropertySheets\" Condition=\"\x27$(Configuration)|$(Platform)\x27==\x27Debug|Win32\x27\">",
    "    <Import Project=\"$(UserRootDir)\\Microsoft.Cpp.$(Platform).user.props\" Condition=\"exists(\x27$(UserRootDir)\\Microsoft.Cpp.$(Platform).user.props\x27)\" Label=\"LocalAppDataPlatform\" />",
    "  </ImportGroup>",
    "  <ImportGroup Label=\"PropertySheets\" Condition=\"\x27$(Configuration)|$(Platform)\x27==\x27Release|Win32\x27\">",
    "    <Import Project=\"$(UserRootDir)\\Microsoft.Cpp.$(Platform).user.props\" Condition=\"exists(\x27$(UserRootDir)\\Microsoft.Cpp.$(Platform).user.props\x27)\" Label=\"LocalAppDataPlatform\" />",
    "  </ImportGroup>",
    "  <PropertyGroup Label=\"UserMacros\" />",
    "  <PropertyGroup Condition=\"\x27$(Configuration)|$(Platform)\x27==\x27Debug|Win32\x27\">",
    "    <NMakeBuildCommandLine>build.bat</NMakeBuildCommandLine>",
    "    <NMakeOutput>build\\" ++ project_name ++ ".exe</NMakeOutput>",
    "    <NMakePreprocessorDefinitions>WIN32;_DEBUG;$(NMakePreprocessorDefinitions)</NMakePreprocessorDefinitions>",
    "    <OutDir>build\\</OutDir>",
    "    <IntDir>build\\</IntDir>",
    "  </PropertyGroup>",
    "  <PropertyGroup Condition=\"\x27$(Configuration)|$(Platform)\x27==\x27Release|Win32\x27\">",
    "    <NMakeBuildCommandLine>build.bat</NMakeBuildCommandLine>",
    "    <NMakeOutput>build\\" ++ project_name ++ ".exe</NMakeOutput>",
    "    <NMakePreprocessorDefinitions>WIN32;NDEBUG;$(NMakePreprocessorDefinitions)</NMakePreprocessorDefinitions>",
    "    <OutDir>build\\</OutDir>",
    "    <IntDir>build\\</IntDir>",
    "  </PropertyGroup>",
    "  <ItemDefinitionGroup>",
    "  </ItemDefinitionGroup>",
    "  <Import Project=\"$(VCTargetsPath)\\Microsoft.Cpp.targets\" />",
    "  <ImportGroup Label=\"ExtensionTargets\">",
    "  </ImportGroup>",
    "</Project>"
  ]

/-- The function `ProjectFile::Write`: the stream after the write. -/
def ProjectFile.Write (project_name : String) (header_files cpp_files : List File)
    (file : String) : String :=
  let file := file ++ ProjectFile.beforeHeaders
  let file := header_files.foldl
    (fun file header_file => file ++ ProjectFile.ClIncludeLine header_file) file
  let file := file ++ ProjectFile.betweenLists
  let file := cpp_files.foldl
    (fun file cpp_file => file ++ ProjectFile.ClCompileLine cpp_file) file
  file ++ ProjectFile.remainder project_name

/-! ## The project filters file -/

/-- The part of the filters file before the `.cpp` files. -/
def ProjectFiltersFile.beforeCppFiles : String :=
  writeLines [
    "<?xml version=\"1.0\" encoding=\"utf-8\"?>",
    "<Project ToolsVersion=\"4.0\" xmlns=\"http://schemas.microsoft.com/developer/msbuild/2003\">",
    "  <ItemGroup>"
  ]

/-- The entry written for one `.cpp` file. -/
def ProjectFiltersFile.ClCompileEntry (cpp_file : File) : String :=
  "    <ClCompile Include=\"" ++ cpp_file.RelativePath ++ "\">" ++ endl
    ++ "      <Filter>" ++ cpp_file.RelativeFolderPath ++ "</Filter>" ++ endl
    ++ "    </ClCompile>" ++ endl

/-- The part of the filters file between the `.cpp` files and the folder filters. -/
def ProjectFiltersFile.beforeFilters : String :=
  writeLines [
    "  </ItemGroup>",
    "  <ItemGroup>",
    "    <None Include=\"build.bat\" />",
    "  </ItemGroup>",
    "  <ItemGroup>"
  ]

/-- The entry written for one folder. -/
def ProjectFiltersFile.FilterEntry (folder : Folder) : String :=
  "    <Filter Include=\"" ++ folder.RelativePath ++ "\">" ++ endl
    ++ "      <UniqueIdentifier>\x7b96873809-db68-49b8-8a4b-a40a3c3972f6\x7d</UniqueIdentifier>"
    ++ endl
    ++ "    </Filter>" ++ endl

/-- The part of the filters file between the folder filters and the header files. -/
def ProjectFiltersFile.beforeHeaders : String :=
  writeLines [
    "  </ItemGroup>",
    "  <ItemGroup>"
  ]

/-- The entry written for one header file. -/
def ProjectFiltersFile.ClIncludeEntry (header_file : File) : String :=
  "    <ClInclude Include=\"" ++ header_file.RelativePath ++ "\">" ++ endl
    ++ "      <Filter>" ++ header_file.RelativeFolderPath ++ "</Filter>" ++ endl
    ++ "    </ClInclude>" ++ endl

/-- The remainder of the filters file. -/
def ProjectFiltersFile.remainder : String :=
  writeLines [
    "  </ItemGroup>",
    "</Project>"
  ]

/-- The function `ProjectFiltersFile::Write`: the stream after the write. -/
def ProjectFiltersFile.Write (header_files cpp_files : List File) (folders : List Folder)
    (file : String) : String :=
  let file := file ++ ProjectFiltersFile.beforeCppFiles
  let file := cpp_files.foldl
    (fun file cpp_file => file ++ ProjectFiltersFile.ClCompileEntry cpp_file) file
  let file := file ++ ProjectFiltersFile.beforeFilters
  let file := folders.foldl
    (fun file folder => file ++ ProjectFiltersFile.FilterEntry folder) file
  let file := file ++ ProjectFiltersFile.beforeHeaders
  let file := header_files.foldl
    (fun file header_file => file ++ ProjectFiltersFile.ClIncludeEntry header_file) file
  file ++ ProjectFiltersFile.remainder

/-! ## The build script -/

/-- The function `BuildScriptBatchFile::Write`: the stream after the write. -/
def BuildScriptBatchFile.Write (project_cpp_filename : String) (code_folder : Folder)
    (file : String) : String :=
  file ++ writeLines [
    "@ECHO off",
    "",
    "REM PUT THE COMPILER IN THE PATH.",
    "REM This isn\x27t necessary and may cause problems if this file is run repeatedly in a command prompt.",
    "REM Remove it if you\x27d prefer to take care of this in some other way.",
    "REM Change the path if you\x27d prefer to use a different version of the Visual Studio compiler.",
    "CALL \"C:\\Program Files (x86)\\Microsoft Visual Studio 12.0\\VC\\vcvarsall.bat\" x64",
    "",
    "REM MOVE INTO THE BUILD DIRECTORY.",
    "IF NOT EXIST \"build\" MKDIR \"build\"",
    "PUSHD \"build\"",
    "",
    "    REM BUILD THE PROGRAM.",
    "    REM See https://msdn.microsoft.com/en-us/library/fwkeyyhe.aspx for compiler options.",
    "    REM The compiler options listed here are just one set of options and definitively don\x27t support much variability.",
    "    REM Support for more variability in this build script may be added later, but feel free to not use this basic template and",
    "    REM just create your own build script as needed.",
    "    REM /Zi - debug info",
    "    REM /EHa - The exception-handling model that catches both asynchronous (structured) and synchronous (C++) exceptions.",
    "    REM /WX - All warnings as errors",
    "    REM /W4 - Warning level 4",
    "    REM /MTd - Static linking with Visual C++ lib.",
    "    REM /I - Additional include directories.",
    "    REM user32.lib and gdi32.lib - Basic Windows functions.  Remove if not needed.",
    "    cl.exe /Zi /EHa /WX /W4 /MTd \"..\\" ++ project_cpp_filename ++ "\" /I \"..\\" ++ code_folder.RelativePath ++ "\" user32.lib gdi32.lib",
    "",
    "POPD",
    "",
    "@ECHO ON"
  ]

/-! ## The entry point -/

/-- What a run of `main` leaves behind. -/
structure MainResult where
  /-- The text written to the error stream. -/
  cerr : String
  /-- The text written to standard output. -/
  cout : String
  /-- The local `header_files`. -/
  header_files : List File
  /-- The local `cpp_files`, with the main `.cpp` file of the project added. -/
  cpp_files : List File
  /-- The local `code_folders`. -/
  code_folders : List Folder
  /-- The files written, as name and content, in the order of writing. -/
  files : List (String × String)
  /-- The value `main` returns. -/
  exit_code : Nat

/-- The value `EXIT_SUCCESS`. -/
def EXIT_SUCCESS : Nat := 0

/-- The function `main`, on a file system and with a budget for `Folder::Get`. The result is
`none` when an argument slot that is read does not exist, or when the budget does not
suffice for the scan. -/
def main (fs : FileSystem) (budget : Nat) (arguments : List String) : Option MainResult :=
  let argument_count := arguments.length
  let EXPECTED_ARGUMENT_COUNT := 3
  let expected_arguments_provided := decide (EXPECTED_ARGUMENT_COUNT = argument_count)
  let cerr :=
    if !expected_arguments_provided then
      "Missing command line arguments!  Usage: " ++ endl
        ++ "\t GenerateProject.exe <ProjectName> <CodeFolderRelativePath>" ++ endl
    else ""
  match arguments[1]?, arguments[2]? with
  | some project_name, some code_folder_path =>
    match Folder.Get fs budget code_folder_path with
    | none => none
    | some code_folder =>
      let cout := code_folder.DebugPrint
      let solution_filename := project_name ++ SOLUTION_FILE_EXTENSION
      let solution_file := SolutionFile.Write project_name ""
      let header_files := code_folder.GetHeaderFiles
      let cpp_files := code_folder.GetCppFiles
      let IN_ROOT_CODE_FOLDER := ""
      let project_cpp_filename := project_name ++ CPP_FILE_EXTENSION
      let cpp_files := cpp_files ++ [File.create IN_ROOT_CODE_FOLDER project_cpp_filename]
      let project_filename := project_name ++ PROJECT_FILE_EXTENSION
      let project_file := ProjectFile.Write project_name header_files cpp_files ""
      let code_folders := code_folder.GetAllFolders
      let project_filters_filename := project_name ++ PROJECT_FILTERS_FILE_EXTENSION
      let project_filters_file :=
        ProjectFiltersFile.Write header_files cpp_files code_folders ""
      let BUILD_SCRIPT_FILENAME := "build.bat"
      let build_script_file := BuildScriptBatchFile.Write project_cpp_filename code_folder ""
      some
        { cerr := cerr
          cout := cout
          header_files := header_files
          cpp_files := cpp_files
          code_folders := code_folders
          files :=
            [(solution_filename, solution_file), (project_filename, project_file),
              (project_filters_filename, project_filters_file),
              (BUILD_SCRIPT_FILENAME, build_script_file)]
          exit_code := EXIT_SUCCESS }
  | _, _ => none

/-! ## Vocabulary for the scanner -/

/-- The entries of a search that are regular files, in order. -/
def regularFileEntries (entries : List FindData) : List FindData :=
  entries.filter (fun file_data => !file_data.is_directory)

/-- The entries of a search that are directories other than `.` and `..`, in order. -/
def subfolderEntries (entries : List FindData) : List FindData :=
  entries.filter (fun file_data =>
    file_data.is_directory && !file_data.is_abbreviated_directory)

/-- The scans of the given directory entries under `relative_path`, in order; `none` when one
of them gives no result. -/
def scanEach (get : String → Option Folder) (relative_path : String) :
    List FindData → Option (List Folder)
  | [] => some []
  | file_data :: rest =>
    match get (relative_path ++ PATH_SEPARATOR ++ file_data.cFileName),
        scanEach get relative_path rest with
    | some subfolder, some subfolders => some (subfolder :: subfolders)
    | _, _ => none

/-- A folder tree whose paths are laid out as the scanner lays them out: every direct file has
the folder's path as its folder path, and every subfolder has the folder's path, a separator
and a name other than `.` and `..` as its path, and is laid out the same way. -/
inductive Scanned : Folder → Prop
  | mk (p : String) (subs : List Folder) (files : List File)
      (hfiles : ∀ f ∈ files, f.RelativeFolderPath = p)
      (hpaths : ∀ s ∈ subs, ∃ name : String,
        name ≠ "." ∧ name ≠ ".." ∧ s.RelativePath = p ++ PATH_SEPARATOR ++ name)
      (hsubs : ∀ s ∈ subs, Scanned s) :
      Scanned (Folder.mk p subs files)

/-- The scan of `p` comes to an end: the scan of every subfolder it enters does. This holds
of every directory tree of finite depth. -/
inductive ScanEnds (fs : FileSystem) : String → Prop
  | intro (p : String)
      (h : ∀ file_data ∈ subfolderEntries (fs (p ++ PATH_SEPARATOR ++ "*")).tail,
        ScanEnds fs (p ++ PATH_SEPARATOR ++ file_data.cFileName)) :
      ScanEnds fs p

/-! ## Example file systems -/

/-- The attribute bits of a plain file, `FILE_ATTRIBUTE_ARCHIVE` of `Windows.h`. -/
def FILE_ATTRIBUTE_ARCHIVE : Nat := 32

/-- A drive root `D:` holding the files `main.h` and `main.cpp`; the search of a drive root
yields no `.` and `..` entries. -/
def driveRootFs : FileSystem := fun pattern =>
  if pattern = "D:\\*" then
    [⟨"main.h", FILE_ATTRIBUTE_ARCHIVE⟩, ⟨"main.cpp", FILE_ATTRIBUTE_ARCHIVE⟩]
  else []

/-- A folder `code` holding `a.h`, `b.cpp` and a subfolder `sub` holding `c.h`; each search
yields `.` and `..` first. -/
def scenarioFs : FileSystem := fun pattern =>
  if pattern = "code\\*" then
    [⟨".", FILE_ATTRIBUTE_DIRECTORY⟩, ⟨"..", FILE_ATTRIBUTE_DIRECTORY⟩,
      ⟨"a.h", FILE_ATTRIBUTE_ARCHIVE⟩, ⟨"b.cpp", FILE_ATTRIBUTE_ARCHIVE⟩,
      ⟨"sub", FILE_ATTRIBUTE_DIRECTORY⟩]
  else if pattern = "code\\sub\\*" then
    [⟨".", FILE_ATTRIBUTE_DIRECTORY⟩, ⟨"..", FILE_ATTRIBUTE_DIRECTORY⟩,
      ⟨"c.h", FILE_ATTRIBUTE_ARCHIVE⟩]
  else []

/-- A file system in which no search can be started. -/
def emptyFs : FileSystem := fun _ => []

/-- The folder tree the scan of `code` in `scenarioFs` builds. -/
def scenarioTree : Folder :=
  .mk "code"
    [.mk "code\\sub" [] [⟨"code\\sub", "code\\sub\\c.h", "c.h"⟩]]
    [⟨"code", "code\\a.h", "a.h"⟩, ⟨"code", "code\\b.cpp", "b.cpp"⟩]

/-- A folder tree that stores a file named `README` next to a header and a source file. -/
def readmeTree : Folder :=
  .mk "code" [] [File.create "code" "README", File.create "code" "a.h", File.create "code" "b.cpp"]

/-! ## Vocabulary for the emitted text -/

/-- The text `s` starts with `start`. -/
def startsWith (s start : String) : Bool :=
  start.data.isPrefixOf s.data

/-- The lines of the project file before the header files, as the specification lists them. -/
def ProjectFile.beforeHeadersLines : List String :=
  [
    "<?xml version=\"1.0\" encoding=\"utf-8\"?>",
    "<Project DefaultTargets=\"Build\" ToolsVersion=\"12.0\" xmlns=\"http://schemas.microsoft.com/developer/msbuild/2003\">",
    "  <ItemGroup Label=\"ProjectConfigurations\">",
    "    <ProjectConfiguration Include=\"Debug|Win32\">",
    "      <Configuration>Debug</Configuration>",
    "      <Platform>Win32</Platform>",
    "    </ProjectConfiguration>",
    "    <ProjectConfiguration Include=\"Release|Win32\">",
    "      <Configuration>Release</Configuration>",
    "      <Platform>Win32</Platform>",
    "    </ProjectConfiguration>",
    "  </ItemGroup>",
    "  <ItemGroup>"
  ]

/-- The lines of the remainder of the project file, as the specification lists them. -/
def ProjectFile.remainderLines (project_name : String) : List String :=
  [
    "  </ItemGroup>",
    "  <ItemGroup>",
    "    <None Include=\"build.bat\" />",
    "  </ItemGroup>",
    "  <PropertyGroup Label=\"Globals\">",
    "    <ProjectGuid>\x7b46D99A72-17AF-4E62-809F-EECB637F6EE1\x7d</ProjectGuid>",
    "    <Keyword>MakeFileProj</Keyword>",
    "    <ProjectName>" ++ project_name ++ "</ProjectName>",
    "  </PropertyGroup>",
    "  <Import Project=\"$(VCTargetsPath)\\Microsoft.Cpp.Default.props\" />",
    "  <PropertyGroup Condition=\"\x27$(Configuration)|$(Platform)\x27==\x27Debug|Win32\x27\" Label=\"Configuration\">",
    "    <ConfigurationType>Makefile</ConfigurationType>",
    "    <UseDebugLibraries>true</UseDebugLibraries>",
    "    <PlatformToolset>v120</PlatformToolset>",
    "  </PropertyGroup>",
    "  <PropertyGroup Condition=\"\x27$(Configuration)|$(Platform)\x27==\x27Release|Win32\x27\" Label=\"Configuration\">",
    "    <ConfigurationType>Makefile</ConfigurationType>",
    "    <UseDebugLibraries>false</UseDebugLibraries>",
    "    <PlatformToolset>v120</PlatformToolset>",
    "  </PropertyGroup>",
    "  <Import Project=\"$(VCTargetsPath)\\Microsoft.Cpp.props\" />",
    "  <ImportGroup Label=\"ExtensionSettings\">",
    "  </ImportGroup>",
    "  <ImportGroup Label=\"PropertySheets\" Condition=\"\x27$(Configuration)|$(Platform)\x27==\x27Debug|Win32\x27\">",
    "    <Import Project=\"$(UserRootDir)\\Microsoft.Cpp.$(Platform).user.props\" Condition=\"exists(\x27$(UserRootDir)\\Microsoft.Cpp.$(Platform).user.props\x27)\" Label=\"LocalAppDataPlatform\" />",
    "  </ImportGroup>",
    "  <ImportGroup Label=\"PropertySheets\" Condition=\"\x27$(Configuration)|$(Platform)\x27==\x27Release|Win32\x27\">",
    "    <Import Project=\"$(UserRootDir)\\Microsoft.Cpp.$(Platform).user.props\" Condition=\"exists(\x27$(UserRootDir)\\Microsoft.Cpp.$(Platform).user.props\x27)\" Label=\"LocalAppDataPlatform\" />",
    "  </ImportGroup>",
    "  <PropertyGroup Label=\"UserMacros\" />",
    "  <PropertyGroup Condition=\"\x27$(Configuration)|$(Platform)\x27==\x27Debug|Win32\x27\">",
    "    <NMakeBuildCommandLine>build.bat</NMakeBuildCommandLine>",
    "    <NMakeOutput>build\\" ++ project_name ++ ".exe</NMakeOutput>",
    "    <NMakePreprocessorDefinitions>WIN32;_DEBUG;$(NMakePreprocessorDefinitions)</NMakePreprocessorDefinitions>",
    "    <OutDir>build\\</OutDir>",
    "    <IntDir>build\\</IntDir>",
    "  </PropertyGroup>",
    "  <PropertyGroup Condition=\"\x27$(Configuration)|$(Platform)\x27==\x27Release|Win32\x27\">",
    "    <NMakeBuildCommandLine>build.bat</NMakeBuildCommandLine>",
    "    <NMakeOutput>build\\" ++ project_name ++ ".exe</NMakeOutput>",
    "    <NMakePreprocessorDefinitions>WIN32;NDEBUG;$(NMakePreprocessorDefinitions)</NMakePreprocessorDefinitions>",
    "    <OutDir>build\\</OutDir>",
    "    <IntDir>build\\</IntDir>",
    "  </PropertyGroup>",
    "  <ItemDefinitionGroup>",
    "  </ItemDefinitionGroup>",
    "  <Import Project=\"$(VCTargetsPath)\\Microsoft.Cpp.targets\" />",
    "  <ImportGroup Label=\"ExtensionTargets\">",
    "  </ImportGroup>",
    "</Project>"
  ]

/-- A folder list in which the folder `code` occurs twice. -/
def repeatedFolders : List Folder :=
  [Folder.create "code", Folder.create "code"]

/-- The text of the build script before the compile line, as the specification has it. -/
def BuildScriptBatchFile.beforeCompile : String :=
  writeLines [
    "@ECHO off",
    "",
    "REM PUT THE COMPILER IN THE PATH.",
    "REM This isn\x27t necessary and may cause problems if this file is run repeatedly in a command prompt.",
    "REM Remove it if you\x27d prefer to take care of this in some other way.",
    "REM Change the path if you\x27d prefer to use a different version of the Visual Studio compiler.",
    "CALL \"C:\\Program Files (x86)\\Microsoft Visual Studio 12.0\\VC\\vcvarsall.bat\" x64",
    "",
    "REM MOVE INTO THE BUILD DIRECTORY.",
    "IF NOT EXIST \"build\" MKDIR \"build\"",
    "PUSHD \"build\"",
    "",
    "    REM BUILD THE PROGRAM.",
    "    REM See https://msdn.microsoft.com/en-us/library/fwkeyyhe.aspx for compiler options.",
    "    REM The compiler options listed here are just one set of options and definitively don\x27t support much variability.",
    "    REM Support for more variability in this build script may be added later, but feel free to not use this basic template and",
    "    REM just create your own build script as needed.",
    "    REM /Zi - debug info",
    "    REM /EHa - The exception-handling model that catches both asynchronous (structured) and synchronous (C++) exceptions.",
    "    REM /WX - All warnings as errors",
    "    REM /W4 - Warning level 4",
    "    REM /MTd - Static linking with Visual C++ lib.",
    "    REM /I - Additional include directories.",
    "    REM user32.lib and gdi32.lib - Basic Windows functions.  Remove if not needed."
  ]

/-- The text of the build script after the compile line, as the specification has it. -/
def BuildScriptBatchFile.afterCompile : String :=
  writeLines [
    "",
    "POPD",
    "",
    "@ECHO ON"
  ]

/-- The compile line of the build script for the main source file `m` and the code folder
path `r`, as the specification has it. -/
def BuildScriptBatchFile.compileLine (m r : String) : String :=
  "    cl.exe /Zi /EHa /WX /W4 /MTd \"..\\" ++ m ++ "\" /I \"..\\" ++ r
    ++ "\" user32.lib gdi32.lib"

/-- The identifier of the generated project, as the specification has it. -/
def PROJECT_GUID : String := "\x7b46D99A72-17AF-4E62-809F-EECB637F6EE1\x7d"

/-- What follows the project identifier in each line of the section
`ProjectConfigurationPlatforms` of the solution file, as the specification has it. -/
def SolutionFile.projectConfigurationPlatforms : List String :=
  [".CommandLineBuild|Win32.ActiveCfg = Release|Win32",
    ".CommandLineBuild|Win32.Build.0 = Release|Win32",
    ".Debug|Win32.ActiveCfg = Debug|Win32",
    ".Debug|Win32.Build.0 = Debug|Win32",
    ".Release|Win32.ActiveCfg = Release|Win32",
    ".Release|Win32.Build.0 = Release|Win32"]

/-! # Theorems -/

/-! ## Lemmas on the string operations -/

theorem findLastIndex_eq_none {c : Char} :
    ∀ {l : List Char}, findLastIndex c l = none ↔ c ∉ l
  | [] => by simp [findLastIndex]
  | x :: xs => by
    have ih := @findLastIndex_eq_none c xs
    cases h : findLastIndex c xs with
    | none =>
      have hx : c ∉ xs := ih.mp h
      by_cases hc : x = c
      · simp [findLastIndex, h, hc]
      · have hc' : ¬ c = x := fun e => hc e.symm
        simp [findLastIndex, h, hc, hc', hx]
    | some i =>
      have hx : ¬ c ∉ xs := fun hn => by rw [ih.mpr hn] at h; cases h
      have hx' : c ∈ xs := by_contra hx
      simp [findLastIndex, h, hx']

theorem findLastIndex_append_cons {c : Char} {suf : List Char} (hsuf : c ∉ suf) :
    ∀ pre : List Char, findLastIndex c (pre ++ c :: suf) = some pre.length
  | [] => by simp [findLastIndex, findLastIndex_eq_none.mpr hsuf]
  | x :: pre => by simp [findLastIndex, findLastIndex_append_cons hsuf pre]

theorem findLastIndex_eq_some {c : Char} :
    ∀ {l : List Char} {i : Nat}, findLastIndex c l = some i →
      ∃ pre suf, l = pre ++ c :: suf ∧ c ∉ suf ∧ pre.length = i
  | [], i, h => by simp [findLastIndex] at h
  | x :: xs, i, h => by
    cases hxs : findLastIndex c xs with
    | none =>
      by_cases hc : x = c
      · simp [findLastIndex, hxs, hc] at h
        exact ⟨[], xs, by simp [hc], findLastIndex_eq_none.mp hxs, by simpa using h⟩
      · simp [findLastIndex, hxs, hc] at h
    | some j =>
      simp [findLastIndex, hxs] at h
      obtain ⟨pre, suf, hl, hsuf, hlen⟩ := findLastIndex_eq_some hxs
      exact ⟨x :: pre, suf, by simp [hl], hsuf, by simp [hlen, h]⟩

/-- The extension of a name with no dot is empty. -/
theorem extension_of_no_dot {file : File} (h : '.' ∉ file.Name.data) :
    file.ExtensionWithLeadingDot = "" := by
  simp [File.ExtensionWithLeadingDot, find_last_of, findLastIndex_eq_none.mpr h]

/-- The extension of a name whose last dot is followed by `suf` is the dot and `suf`. -/
theorem extension_of_last_dot {file : File} {pre suf : List Char}
    (hn : file.Name.data = pre ++ '.' :: suf) (hsuf : '.' ∉ suf) :
    file.ExtensionWithLeadingDot = ⟨'.' :: suf⟩ := by
  simp [File.ExtensionWithLeadingDot, find_last_of, hn, findLastIndex_append_cons hsuf, substr]

/-- Every name either has no dot, or splits at its last dot. -/
theorem name_cases (file : File) :
    ('.' ∉ file.Name.data ∧ file.ExtensionWithLeadingDot = "") ∨
    (∃ pre suf : List Char, file.Name.data = pre ++ '.' :: suf ∧ '.' ∉ suf ∧
      file.ExtensionWithLeadingDot = ⟨'.' :: suf⟩) := by
  cases h : findLastIndex '.' file.Name.data with
  | none =>
    exact Or.inl ⟨findLastIndex_eq_none.mp h, extension_of_no_dot (findLastIndex_eq_none.mp h)⟩
  | some i =>
    obtain ⟨pre, suf, hl, hsuf, -⟩ := findLastIndex_eq_some h
    exact Or.inr ⟨pre, suf, hl, hsuf, extension_of_last_dot hl hsuf⟩

/-- An extension made of a dot and dot-free characters is the file's extension exactly when
the name ends in it. -/
theorem extension_eq_iff_endsIn (file : File) (r : List Char) (hr : '.' ∉ r) :
    (⟨'.' :: r⟩ : String) = file.ExtensionWithLeadingDot ↔ EndsIn file.Name ⟨'.' :: r⟩ := by
  constructor
  · intro h
    rcases name_cases file with ⟨-, he⟩ | ⟨pre, suf, hn, -, he⟩
    · rw [he] at h
      exact absurd (congrArg String.data h) (by simp)
    · rw [he] at h
      have : r = suf := by simpa using congrArg String.data h
      subst this
      exact ⟨pre, hn.symm⟩
  · rintro ⟨pre, hpre⟩
    exact (extension_of_last_dot hpre.symm hr).symm


/-! ## Lemmas on the flattening helpers -/

theorem foldl_push_if {α : Type} (p : α → Prop) [DecidablePred p] :
    ∀ (l acc : List α),
      l.foldl (fun acc a => if p a then acc ++ [a] else acc) acc
        = acc ++ l.filter (fun a => decide (p a))
  | [], acc => by simp
  | a :: l, acc => by
    by_cases h : p a
    · simp [List.foldl_cons, h, foldl_push_if p l, List.filter_cons]
    · simp [List.foldl_cons, h, foldl_push_if p l, List.filter_cons]

theorem headerFilesOf_eq (files : List File) :
    headerFilesOf files
      = files.filter (fun f => decide (HEADER_FILE_EXTENSION = f.ExtensionWithLeadingDot)) := by
  simpa [headerFilesOf] using
    foldl_push_if (fun f : File => HEADER_FILE_EXTENSION = f.ExtensionWithLeadingDot) files []

theorem cppFilesOf_eq (files : List File) :
    cppFilesOf files
      = files.filter (fun f => decide (CPP_FILE_EXTENSION = f.ExtensionWithLeadingDot)) := by
  simpa [cppFilesOf] using
    foldl_push_if (fun f : File => CPP_FILE_EXTENSION = f.ExtensionWithLeadingDot) files []

theorem header_iff_endsIn (f : File) :
    HEADER_FILE_EXTENSION = f.ExtensionWithLeadingDot ↔ EndsIn f.Name ".h" :=
  extension_eq_iff_endsIn f ['h'] (by decide)

theorem cpp_iff_endsIn (f : File) :
    CPP_FILE_EXTENSION = f.ExtensionWithLeadingDot ↔ EndsIn f.Name ".cpp" :=
  extension_eq_iff_endsIn f ['c', 'p', 'p'] (by decide)

theorem GetHeaderFilesLoop_eq :
    ∀ (subs : List Folder) (acc : List File),
      GetHeaderFilesLoop subs acc = acc ++ subs.flatMap Folder.GetHeaderFiles
  | [], acc => by simp [GetHeaderFilesLoop]
  | s :: rest, acc => by simp [GetHeaderFilesLoop, GetHeaderFilesLoop_eq rest]

theorem GetCppFilesLoop_eq :
    ∀ (subs : List Folder) (acc : List File),
      GetCppFilesLoop subs acc = acc ++ subs.flatMap Folder.GetCppFiles
  | [], acc => by simp [GetCppFilesLoop]
  | s :: rest, acc => by simp [GetCppFilesLoop, GetCppFilesLoop_eq rest]

theorem GetAllFoldersLoop_eq :
    ∀ (subs : List Folder) (acc : List Folder),
      GetAllFoldersLoop subs acc = acc ++ subs.flatMap Folder.GetAllFolders
  | [], acc => by simp [GetAllFoldersLoop]
  | s :: rest, acc => by simp [GetAllFoldersLoop, GetAllFoldersLoop_eq rest]

theorem allFilesOfList_eq :
    ∀ subs : List Folder, allFilesOfList subs = subs.flatMap Folder.allFiles
  | [] => by simp [allFilesOfList]
  | s :: rest => by simp [allFilesOfList, allFilesOfList_eq rest]

theorem GetHeaderFiles_eq (T : Folder) :
    T.GetHeaderFiles
      = T.Files.filter (fun f => decide (EndsIn f.Name ".h"))
          ++ T.Subfolders.flatMap Folder.GetHeaderFiles := by
  cases T with
  | mk p subs files =>
    simp only [Folder.GetHeaderFiles, GetHeaderFilesLoop_eq, headerFilesOf_eq, Folder.Files,
      Folder.Subfolders, header_iff_endsIn]

theorem GetCppFiles_eq (T : Folder) :
    T.GetCppFiles
      = T.Files.filter (fun f => decide (EndsIn f.Name ".cpp"))
          ++ T.Subfolders.flatMap Folder.GetCppFiles := by
  cases T with
  | mk p subs files =>
    simp only [Folder.GetCppFiles, GetCppFilesLoop_eq, cppFilesOf_eq, Folder.Files,
      Folder.Subfolders, cpp_iff_endsIn]

theorem allFiles_eq (T : Folder) :
    T.allFiles = T.Files ++ T.Subfolders.flatMap Folder.allFiles := by
  cases T with
  | mk p subs files => simp [Folder.allFiles, allFilesOfList_eq, Folder.Files, Folder.Subfolders]

mutual
theorem GetHeaderFiles_eq_filter :
    ∀ T : Folder, T.GetHeaderFiles = T.allFiles.filter (fun f => decide (EndsIn f.Name ".h"))
  | .mk p subs files => by
    rw [GetHeaderFiles_eq, allFiles_eq, List.filter_append]
    simp only [Folder.Files, Folder.Subfolders]
    rw [flatMap_GetHeaderFiles_eq_filter subs]
theorem flatMap_GetHeaderFiles_eq_filter :
    ∀ subs : List Folder,
      subs.flatMap Folder.GetHeaderFiles
        = (subs.flatMap Folder.allFiles).filter (fun f => decide (EndsIn f.Name ".h"))
  | [] => by simp
  | s :: rest => by
    simp only [List.flatMap_cons, List.filter_append]
    rw [GetHeaderFiles_eq_filter s, flatMap_GetHeaderFiles_eq_filter rest]
end

mutual
theorem GetCppFiles_eq_filter :
    ∀ T : Folder, T.GetCppFiles = T.allFiles.filter (fun f => decide (EndsIn f.Name ".cpp"))
  | .mk p subs files => by
    rw [GetCppFiles_eq, allFiles_eq, List.filter_append]
    simp only [Folder.Files, Folder.Subfolders]
    rw [flatMap_GetCppFiles_eq_filter subs]
theorem flatMap_GetCppFiles_eq_filter :
    ∀ subs : List Folder,
      subs.flatMap Folder.GetCppFiles
        = (subs.flatMap Folder.allFiles).filter (fun f => decide (EndsIn f.Name ".cpp"))
  | [] => by simp
  | s :: rest => by
    simp only [List.flatMap_cons, List.filter_append]
    rw [GetCppFiles_eq_filter s, flatMap_GetCppFiles_eq_filter rest]
end

theorem count_filter_eq (p : File → Prop) [DecidablePred p] (f : File) (l : List File) :
    (l.filter (fun a => decide (p a))).count f = if p f then l.count f else 0 := by
  by_cases h : p f
  · simp [h, List.count_filter]
  · simp only [h, if_false]
    exact List.count_eq_zero.mpr (fun hm => h (by simpa using (List.mem_filter.mp hm).2))


theorem GetAllFolders_eq (T : Folder) :
    T.GetAllFolders = T :: T.Subfolders.flatMap Folder.GetAllFolders := by
  cases T with
  | mk p subs files => simp [Folder.GetAllFolders, GetAllFoldersLoop_eq, Folder.Subfolders]

mutual
theorem length_GetAllFolders :
    ∀ T : Folder, T.GetAllFolders.length = 1 + T.subfolderCount
  | .mk p subs files => by
    rw [GetAllFolders_eq, List.length_cons, Folder.subfolderCount]
    simp only [Folder.Subfolders]
    rw [length_flatMap_GetAllFolders subs]; omega
theorem length_flatMap_GetAllFolders :
    ∀ subs : List Folder,
      (subs.flatMap Folder.GetAllFolders).length = subfolderCountOfList subs
  | [] => by simp [subfolderCountOfList]
  | s :: rest => by
    rw [List.flatMap_cons, List.length_append, length_GetAllFolders s,
      length_flatMap_GetAllFolders rest, subfolderCountOfList]
end

mutual
theorem sizeOf_le_of_mem_GetAllFolders :
    ∀ (T F : Folder), F ∈ T.GetAllFolders → sizeOf F ≤ sizeOf T
  | .mk p subs files, F, h => by
    rw [GetAllFolders_eq, List.mem_cons] at h
    rcases h with h | h
    · rw [h]
    · have := sizeOf_lt_of_mem_flatMap_GetAllFolders subs F h
      simp only [Folder.mk.sizeOf_spec]; omega
theorem sizeOf_lt_of_mem_flatMap_GetAllFolders :
    ∀ (subs : List Folder) (F : Folder),
      F ∈ subs.flatMap Folder.GetAllFolders → sizeOf F < sizeOf subs
  | [], F, h => by simp at h
  | s :: rest, F, h => by
    rw [List.flatMap_cons, List.mem_append] at h
    simp only [List.cons.sizeOf_spec]
    rcases h with h | h
    · have := sizeOf_le_of_mem_GetAllFolders s F h; omega
    · have := sizeOf_lt_of_mem_flatMap_GetAllFolders rest F h; omega
end

theorem not_mem_flatMap_GetAllFolders (T : Folder) :
    T ∉ T.Subfolders.flatMap Folder.GetAllFolders := by
  cases T with
  | mk p subs files =>
    intro h
    have := sizeOf_lt_of_mem_flatMap_GetAllFolders subs _ h
    simp only [Folder.mk.sizeOf_spec] at this
    omega

/-! ## The flattening helpers and the data model -/

/-- C1: `GetHeaderFiles` of a folder tree is the folder's own files whose name ends in `.h`,
in stored order, followed by `GetHeaderFiles` of each subfolder in subfolder order; a file is
in the result exactly when it is stored in the tree and its name ends in `.h`, and it then
occurs as many times as it is stored in the tree. -/
theorem GetHeaderFiles_preorder (T : Folder) :
    T.GetHeaderFiles
        = T.Files.filter (fun f => decide (EndsIn f.Name ".h"))
            ++ T.Subfolders.flatMap Folder.GetHeaderFiles
      ∧ (∀ f : File, f ∈ T.GetHeaderFiles ↔ f ∈ T.allFiles ∧ EndsIn f.Name ".h")
      ∧ (∀ f : File,
          T.GetHeaderFiles.count f = if EndsIn f.Name ".h" then T.allFiles.count f else 0) := by
  refine ⟨GetHeaderFiles_eq T, fun f => ?_, fun f => ?_⟩
  · rw [GetHeaderFiles_eq_filter, List.mem_filter]; simp
  · rw [GetHeaderFiles_eq_filter]
    exact count_filter_eq (fun f => EndsIn f.Name ".h") f T.allFiles

/-- C2: `GetCppFiles` of a folder tree is the folder's own files whose name ends in `.cpp`,
in stored order, followed by `GetCppFiles` of each subfolder in subfolder order; a file is in
the result exactly when it is stored in the tree and its name ends in `.cpp`. -/
theorem GetCppFiles_preorder (T : Folder) :
    T.GetCppFiles
        = T.Files.filter (fun f => decide (EndsIn f.Name ".cpp"))
            ++ T.Subfolders.flatMap Folder.GetCppFiles
      ∧ (∀ f : File, f ∈ T.GetCppFiles ↔ f ∈ T.allFiles ∧ EndsIn f.Name ".cpp")
      ∧ T.GetCppFiles = T.allFiles.filter (fun f => decide (EndsIn f.Name ".cpp")) := by
  refine ⟨GetCppFiles_eq T, fun f => ?_, GetCppFiles_eq_filter T⟩
  rw [GetCppFiles_eq_filter, List.mem_filter]; simp

/-- C3: `GetAllFolders` of a folder tree is the tree itself followed by `GetAllFolders` of
each subfolder in order; its length is one more than the number of direct and transitive
subfolders, and the tree itself does not occur again after the first place. -/
theorem GetAllFolders_preorder (T : Folder) :
    T.GetAllFolders = T :: T.Subfolders.flatMap Folder.GetAllFolders
      ∧ T.GetAllFolders.length = 1 + T.subfolderCount
      ∧ T ∉ T.Subfolders.flatMap Folder.GetAllFolders :=
  ⟨GetAllFolders_eq T, length_GetAllFolders T, not_mem_flatMap_GetAllFolders T⟩

/-- C4: the file constructed from a folder path and a name keeps both, its relative path is
the name alone when the folder path is empty and folder path, separator and name otherwise,
and the relative path is recomputed from the other two fields by the constructor. -/
theorem File_create_fields (d n : String) :
    (File.create d n).RelativeFolderPath = d
      ∧ (File.create d n).Name = n
      ∧ (File.create d n).RelativePath = (if d = "" then n else d ++ "\\" ++ n)
      ∧ File.create (File.create d n).RelativeFolderPath (File.create d n).Name
          = File.create d n := by
  by_cases h : d = ""
  · simp [File.create, h]
  · simp [File.create, h, PATH_SEPARATOR]

/-- C5: the extension is the part of the name from its last dot on, the dot included, and it
is empty exactly when the name has no dot. -/
theorem ExtensionWithLeadingDot_spec (file : File) :
    (('.' ∉ file.Name.data ∧ file.ExtensionWithLeadingDot = "")
        ∨ ∃ pre suf : String, file.Name = pre ++ "." ++ suf ∧ '.' ∉ suf.data
            ∧ file.ExtensionWithLeadingDot = "." ++ suf)
      ∧ (file.ExtensionWithLeadingDot = "" ↔ '.' ∉ file.Name.data) := by
  rcases name_cases file with ⟨hno, he⟩ | ⟨pre, suf, hn, hsuf, he⟩
  · exact ⟨Or.inl ⟨hno, he⟩, fun _ => hno, fun _ => he⟩
  · have hdot : '.' ∈ file.Name.data := by rw [hn]; simp
    refine ⟨Or.inr ⟨⟨pre⟩, ⟨suf⟩, ?_, hsuf, ?_⟩, fun h0 => ?_, fun hno => absurd hdot hno⟩
    · apply String.ext; simp [hn]
    · rw [he]; apply String.ext; simp
    · rw [he] at h0
      exact absurd (congrArg String.data h0) (by simp)


/-! ## Lemmas on the scanner -/

theorem GetLoop_eq (get : String → Option Folder) (p : String) :
    ∀ (entries : List FindData) (q : String) (subs : List Folder) (files : List File),
      GetLoop get p entries (Folder.mk q subs files)
        = (scanEach get p (subfolderEntries entries)).map (fun scanned =>
            Folder.mk q (subs ++ scanned)
              (files ++ (regularFileEntries entries).map
                (fun file_data => File.create q file_data.cFileName)))
  | [], q, subs, files => by
    simp [GetLoop, scanEach, subfolderEntries, regularFileEntries]
  | e :: es, q, subs, files => by
    by_cases hd : e.is_directory = true
    · by_cases ha : e.is_abbreviated_directory = true
      · simp [GetLoop, hd, ha, subfolderEntries, regularFileEntries, GetLoop_eq get p es]
      · cases hg : get (p ++ PATH_SEPARATOR ++ e.cFileName) with
        | none =>
          simp [GetLoop, hd, ha, hg, subfolderEntries, regularFileEntries, scanEach]
        | some sub =>
          simp only [GetLoop, hd, ha, hg, Folder.RelativePath, Folder.Subfolders, Folder.Files,
            GetLoop_eq get p es]
          cases hs : scanEach get p (subfolderEntries es) with
          | none =>
            simp [subfolderEntries, regularFileEntries, hd, ha, scanEach, hg] at hs ⊢
            simp [hs]
          | some scanned =>
            simp [subfolderEntries, regularFileEntries, hd, ha, scanEach, hg] at hs ⊢
            simp [hs]
    · simp [GetLoop, hd, subfolderEntries, regularFileEntries, GetLoop_eq get p es,
        Folder.RelativePath, Folder.Subfolders, Folder.Files]

theorem Get_succ_eq (fs : FileSystem) (budget : Nat) (p : String) :
    Folder.Get fs (budget + 1) p
      = (scanEach (Folder.Get fs budget) p
            (subfolderEntries (fs (p ++ PATH_SEPARATOR ++ "*")).tail)).map (fun scanned =>
          Folder.mk p scanned
            ((regularFileEntries (fs (p ++ PATH_SEPARATOR ++ "*")).tail).map
              (fun file_data => File.create p file_data.cFileName))) := by
  have htail : FindFirstFile fs (p ++ PATH_SEPARATOR ++ "*")
      = (fs (p ++ PATH_SEPARATOR ++ "*")).tail := by
    unfold FindFirstFile
    cases fs (p ++ PATH_SEPARATOR ++ "*") <;> rfl
  simp only [Folder.Get, Folder.create, htail, GetLoop_eq]
  simp


theorem create_RelativeFolderPath (d n : String) : (File.create d n).RelativeFolderPath = d := by
  unfold File.create; split <;> rfl

theorem scanEach_eq_some {get : String → Option Folder} {p : String} :
    ∀ {entries : List FindData} {scanned : List Folder},
      scanEach get p entries = some scanned →
        List.Forall₂ (fun file_data subfolder =>
          get (p ++ PATH_SEPARATOR ++ file_data.cFileName) = some subfolder) entries scanned
  | [], scanned, h => by
    simp [scanEach] at h; subst h; exact List.Forall₂.nil
  | e :: es, scanned, h => by
    cases hg : get (p ++ PATH_SEPARATOR ++ e.cFileName) with
    | none => simp [scanEach, hg] at h
    | some sub =>
      cases hs : scanEach get p es with
      | none => simp [scanEach, hg, hs] at h
      | some rest =>
        simp [scanEach, hg, hs] at h; subst h
        exact List.Forall₂.cons hg (scanEach_eq_some hs)

theorem exists_of_forall₂_right {α β : Type} {R : α → β → Prop} {l₁ : List α} {l₂ : List β}
    (h : List.Forall₂ R l₁ l₂) : ∀ {b : β}, b ∈ l₂ → ∃ a ∈ l₁, R a b := by
  induction h with
  | nil => intro b hb; simp at hb
  | cons hab _ ih =>
    intro b hb
    rcases List.mem_cons.mp hb with rfl | hb
    · exact ⟨_, List.mem_cons_self _ _, hab⟩
    · obtain ⟨a, ha, hr⟩ := ih hb
      exact ⟨a, List.mem_cons_of_mem _ ha, hr⟩

theorem name_of_subfolderEntry {entries : List FindData} {e : FindData}
    (h : e ∈ subfolderEntries entries) : e.cFileName ≠ "." ∧ e.cFileName ≠ ".." := by
  have h2 := (List.mem_filter.mp h).2
  simp [FindData.is_abbreviated_directory] at h2
  exact h2.2

/-- A scan that returns a folder returns one with the given path and the scanner's layout. -/
theorem Get_scanned (fs : FileSystem) :
    ∀ (budget : Nat) (p : String) (T : Folder), Folder.Get fs budget p = some T →
      T.RelativePath = p ∧ Scanned T
  | 0, p, T, h => by simp [Folder.Get] at h
  | budget + 1, p, T, h => by
    rw [Get_succ_eq] at h
    cases hs : scanEach (Folder.Get fs budget) p
        (subfolderEntries (fs (p ++ PATH_SEPARATOR ++ "*")).tail) with
    | none => simp [hs] at h
    | some scanned =>
      simp only [hs, Option.map_some', Option.some.injEq] at h
      subst h
      have hall := scanEach_eq_some hs
      refine ⟨rfl, Scanned.mk _ _ _ ?_ ?_ ?_⟩
      · intro f hf
        obtain ⟨e, -, rfl⟩ := List.mem_map.mp hf
        exact create_RelativeFolderPath _ _
      · intro s hsmem
        obtain ⟨e, he, hget⟩ := exists_of_forall₂_right hall hsmem
        have hn := name_of_subfolderEntry he
        exact ⟨e.cFileName, hn.1, hn.2, (Get_scanned fs budget _ _ hget).1⟩
      · intro s hsmem
        obtain ⟨e, -, hget⟩ := exists_of_forall₂_right hall hsmem
        exact (Get_scanned fs budget _ _ hget).2


theorem Scanned_of_mem_GetAllFolders {T : Folder} (hT : Scanned T) :
    ∀ F ∈ T.GetAllFolders, Scanned F := by
  induction hT with
  | mk p subs files hfiles hpaths hsubs ih =>
    intro F hF
    rw [GetAllFolders_eq, List.mem_cons] at hF
    rcases hF with rfl | hF
    · exact Scanned.mk p subs files hfiles hpaths hsubs
    · obtain ⟨s, hs, hFs⟩ := List.mem_flatMap.mp hF
      exact ih s hs F hFs

theorem Scanned_files {F : Folder} (hF : Scanned F) :
    ∀ f ∈ F.Files, f.RelativeFolderPath = F.RelativePath := by
  cases hF with
  | mk p subs files hfiles hpaths hsubs => exact hfiles

theorem Scanned_allFiles {F : Folder} (hF : Scanned F) :
    ∀ f ∈ F.allFiles, ∃ rest : String, f.RelativeFolderPath = F.RelativePath ++ rest := by
  induction hF with
  | mk p subs files hfiles hpaths hsubs ih =>
    intro f hf
    rw [allFiles_eq, List.mem_append] at hf
    rcases hf with hf | hf
    · exact ⟨"", by simpa [Folder.RelativePath] using hfiles f hf⟩
    · obtain ⟨s, hs, hfs⟩ := List.mem_flatMap.mp hf
      obtain ⟨rest, hrest⟩ := ih s hs f hfs
      obtain ⟨name, -, -, hname⟩ := hpaths s hs
      refine ⟨PATH_SEPARATOR ++ name ++ rest, ?_⟩
      rw [hrest, hname]
      simp [Folder.RelativePath, String.append_assoc]

theorem append_left_cancel {p a b : String} (h : p ++ a = p ++ b) : a = b := by
  apply String.ext
  have := congrArg String.data h
  simpa using this

theorem Scanned_subfolders {F : Folder} (hF : Scanned F) :
    ∀ S ∈ F.Subfolders,
      (∃ name : String, name ≠ "." ∧ name ≠ ".."
          ∧ S.RelativePath = F.RelativePath ++ "\\" ++ name)
        ∧ S.RelativePath ≠ F.RelativePath ++ "\\."
        ∧ S.RelativePath ≠ F.RelativePath ++ "\\.." := by
  cases hF with
  | mk p subs files hfiles hpaths hsubs =>
    intro S hS
    obtain ⟨name, h1, h2, hname⟩ := hpaths S hS
    have hsep : ∀ x : String, p ++ PATH_SEPARATOR ++ x = p ++ ("\\" ++ x) := fun x => by
      rw [String.append_assoc]; rfl
    refine ⟨⟨name, h1, h2, hname⟩, ?_, ?_⟩
    · intro hbad
      rw [hname, hsep] at hbad
      exact h1 (append_left_cancel (p := "\\") (append_left_cancel hbad))
    · intro hbad
      rw [hname, hsep] at hbad
      exact h2 (append_left_cancel (p := "\\") (append_left_cancel hbad))


/-! ## The scanner -/

/-- What one scan does, with the directory search as the ordered list of entries it yields: a
scan of `p` gives a folder with path `p`, one child file (folder path `p`, name of the entry)
for every regular-file entry after the first entry of the listing, and one scanned child
folder for every directory entry after the first other than `.` and `..`, both in listing
order; it gives a result exactly when each of these subfolder scans gives one. The first entry
of the listing is fetched by `FindFirstFile` and never examined. -/
theorem Get_children (fs : FileSystem) (budget : Nat) (p : String) :
    Folder.Get fs (budget + 1) p
      = (scanEach (Folder.Get fs budget) p (subfolderEntries (fs (p ++ "\\*")).tail)).map
          (fun scanned =>
            Folder.mk p scanned
              ((regularFileEntries (fs (p ++ "\\*")).tail).map
                (fun file_data => File.create p file_data.cFileName))) := by
  have hpat : p ++ PATH_SEPARATOR ++ "*" = p ++ "\\*" := by
    rw [String.append_assoc]; rfl
  rw [Get_succ_eq, hpat]

/-- C6 (the code at the failing input): the search of the drive root `D:` yields the regular
files `main.h` and `main.cpp` and nothing else, and the scan returns a folder whose only child
file is `main.cpp`: the entry `main.h`, a regular file of the listing, gets no child file,
against the claim that no entry of the listing is omitted. -/
theorem Get_omits_first_entry :
    regularFileEntries (driveRootFs "D:\\*")
        = [⟨"main.h", FILE_ATTRIBUTE_ARCHIVE⟩, ⟨"main.cpp", FILE_ATTRIBUTE_ARCHIVE⟩]
      ∧ (Folder.Get driveRootFs 1 "D:").map Folder.Files = some [File.create "D:" "main.cpp"]
      ∧ (Folder.Get driveRootFs 1 "D:").map Folder.Files
          ≠ some ((regularFileEntries (driveRootFs "D:\\*")).map
              (fun file_data => File.create "D:" file_data.cFileName)) := by
  decide

/-- C7: in the tree a scan of `p` returns, the root has path `p`; for every folder of the
tree, each direct file has the folder's path as its folder path and each file anywhere under
the folder has a folder path that starts with the folder's path; so every file of the tree
has a folder path that starts with `p`. -/
theorem Get_file_paths (fs : FileSystem) (budget : Nat) (p : String) (T : Folder)
    (h : Folder.Get fs budget p = some T) :
    T.RelativePath = p
      ∧ (∀ F ∈ T.GetAllFolders,
          (∀ f ∈ F.Files, f.RelativeFolderPath = F.RelativePath)
            ∧ ∀ f ∈ F.allFiles, ∃ rest : String, f.RelativeFolderPath = F.RelativePath ++ rest)
      ∧ ∀ f ∈ T.allFiles, ∃ rest : String, f.RelativeFolderPath = p ++ rest := by
  obtain ⟨hp, hT⟩ := Get_scanned fs budget p T h
  refine ⟨hp, fun F hF => ?_, ?_⟩
  · have hS := Scanned_of_mem_GetAllFolders hT F hF
    exact ⟨Scanned_files hS, Scanned_allFiles hS⟩
  · have := Scanned_allFiles hT
    rwa [hp] at this

/-- C7 (witness): the scan of `code` in the example file system. -/
theorem Get_file_paths_witness :
    Folder.Get scenarioFs 2 "code" = some scenarioTree
      ∧ (scenarioTree.RelativePath = "code"
        ∧ (∀ F ∈ scenarioTree.GetAllFolders,
            (∀ f ∈ F.Files, f.RelativeFolderPath = F.RelativePath)
              ∧ ∀ f ∈ F.allFiles,
                  ∃ rest : String, f.RelativeFolderPath = F.RelativePath ++ rest)
        ∧ ∀ f ∈ scenarioTree.allFiles, ∃ rest : String, f.RelativeFolderPath = "code" ++ rest) :=
  ⟨by rfl, Get_file_paths scenarioFs 2 "code" scenarioTree (by rfl)⟩

/-- C10: in the tree a scan of `p` returns, every child folder of every folder has the
parent's path, a separator and a name other than `.` and `..` as its path; no child has the
parent's path followed by `\.` or by `\..` as its path. -/
theorem Get_no_abbreviated_subfolder (fs : FileSystem) (budget : Nat) (p : String)
    (T : Folder) (h : Folder.Get fs budget p = some T) :
    ∀ F ∈ T.GetAllFolders, ∀ S ∈ F.Subfolders,
      (∃ name : String, name ≠ "." ∧ name ≠ ".."
          ∧ S.RelativePath = F.RelativePath ++ "\\" ++ name)
        ∧ S.RelativePath ≠ F.RelativePath ++ "\\."
        ∧ S.RelativePath ≠ F.RelativePath ++ "\\.." := by
  intro F hF
  exact Scanned_subfolders (Scanned_of_mem_GetAllFolders (Get_scanned fs budget p T h).2 F hF)

/-- C10 (witness): the scan of `code` in the example file system, whose searches yield `..`
after the first entry. -/
theorem Get_no_abbreviated_subfolder_witness :
    Folder.Get scenarioFs 2 "code" = some scenarioTree
      ∧ ∀ F ∈ scenarioTree.GetAllFolders, ∀ S ∈ F.Subfolders,
          (∃ name : String, name ≠ "." ∧ name ≠ ".."
              ∧ S.RelativePath = F.RelativePath ++ "\\" ++ name)
            ∧ S.RelativePath ≠ F.RelativePath ++ "\\."
            ∧ S.RelativePath ≠ F.RelativePath ++ "\\.." :=
  ⟨by rfl, Get_no_abbreviated_subfolder scenarioFs 2 "code" scenarioTree (by rfl)⟩


/-! ## The run of `main` -/

theorem Get_of_no_entries (fs : FileSystem) (budget : Nat) (p : String)
    (h : fs (p ++ "\\*") = []) :
    Folder.Get fs (budget + 1) p = some (Folder.mk p [] []) := by
  have hpat : p ++ PATH_SEPARATOR ++ "*" = p ++ "\\*" := by
    rw [String.append_assoc]; rfl
  rw [Get_succ_eq, hpat, h]
  rfl

/-- C8: when the search of `p` yields nothing, the scan returns the folder with path `p` and
no files or subfolders; the run of `main` then ends normally with an empty header list, a
source list holding only the file `<ProjectName>.cpp`, and a project file made of the fixed
opening, no `ClInclude` line, the fixed separator, the one `ClCompile` line of
`<ProjectName>.cpp`, and the remainder. -/
theorem main_of_unreadable_folder (fs : FileSystem) (budget : Nat)
    (program project_name p : String) (h : fs (p ++ "\\*") = []) :
    Folder.Get fs (budget + 1) p = some (Folder.mk p [] [])
      ∧ ∃ r : MainResult, main fs (budget + 1) [program, project_name, p] = some r
          ∧ r.cerr = "" ∧ r.exit_code = EXIT_SUCCESS
          ∧ r.header_files = []
          ∧ r.cpp_files = [File.create "" (project_name ++ ".cpp")]
          ∧ (project_name ++ ".vcxproj",
              ProjectFile.beforeHeaders ++ ProjectFile.betweenLists
                ++ ("    <ClCompile Include=\"" ++ (project_name ++ ".cpp") ++ "\" />" ++ endl)
                ++ ProjectFile.remainder project_name) ∈ r.files := by
  have hget := Get_of_no_entries fs budget p h
  refine ⟨hget, ?_⟩
  simp only [main, hget, List.getElem?_cons_succ, List.getElem?_cons_zero, List.length_cons,
    List.length_nil]
  refine ⟨_, rfl, ?_, rfl, ?_, ?_, ?_⟩
  · simp
  · simp [Folder.GetHeaderFiles, GetHeaderFilesLoop, headerFilesOf]
  · simp [Folder.GetCppFiles, GetCppFilesLoop, cppFilesOf, CPP_FILE_EXTENSION]
  · simp [Folder.GetHeaderFiles, GetHeaderFilesLoop, headerFilesOf, Folder.GetCppFiles,
      GetCppFilesLoop, cppFilesOf, CPP_FILE_EXTENSION, PROJECT_FILE_EXTENSION,
      ProjectFile.Write, ProjectFile.ClCompileLine, File.create]

/-- C8 (witness): a run on the file system in which no search can be started. -/
theorem main_of_unreadable_folder_witness :
    emptyFs ("missing" ++ "\\*") = []
      ∧ (Folder.Get emptyFs (0 + 1) "missing" = some (Folder.mk "missing" [] [])
        ∧ ∃ r : MainResult,
            main emptyFs (0 + 1) ["GenerateProject.exe", "Game", "missing"] = some r
              ∧ r.cerr = "" ∧ r.exit_code = EXIT_SUCCESS
              ∧ r.header_files = []
              ∧ r.cpp_files = [File.create "" ("Game" ++ ".cpp")]
              ∧ ("Game" ++ ".vcxproj",
                  ProjectFile.beforeHeaders ++ ProjectFile.betweenLists
                    ++ ("    <ClCompile Include=\"" ++ ("Game" ++ ".cpp") ++ "\" />" ++ endl)
                    ++ ProjectFile.remainder "Game") ∈ r.files) :=
  ⟨rfl, main_of_unreadable_folder emptyFs 0 "GenerateProject.exe" "Game" "missing" rfl⟩


theorem Get_scenario (fs : FileSystem) (budget : Nat) (p : String)
    (hroot : fs (p ++ "\\*")
      = [⟨".", FILE_ATTRIBUTE_DIRECTORY⟩, ⟨"..", FILE_ATTRIBUTE_DIRECTORY⟩,
          ⟨"a.h", FILE_ATTRIBUTE_ARCHIVE⟩, ⟨"b.cpp", FILE_ATTRIBUTE_ARCHIVE⟩,
          ⟨"sub", FILE_ATTRIBUTE_DIRECTORY⟩])
    (hsub : fs (p ++ "\\sub\\*")
      = [⟨".", FILE_ATTRIBUTE_DIRECTORY⟩, ⟨"..", FILE_ATTRIBUTE_DIRECTORY⟩,
          ⟨"c.h", FILE_ATTRIBUTE_ARCHIVE⟩]) :
    Folder.Get fs (budget + 2) p
      = some (Folder.mk p
          [Folder.mk (p ++ "\\sub") [] [File.create (p ++ "\\sub") "c.h"]]
          [File.create p "a.h", File.create p "b.cpp"]) := by
  have hpat : ∀ q : String, q ++ PATH_SEPARATOR ++ "*" = q ++ "\\*" := fun q => by
    rw [String.append_assoc]; rfl
  have hsubpath : p ++ PATH_SEPARATOR ++ "sub" = p ++ "\\sub" := by
    rw [String.append_assoc]; rfl
  have hsubpat : p ++ "\\sub" ++ "\\*" = p ++ "\\sub\\*" := by
    rw [String.append_assoc]; rfl
  have hinner : Folder.Get fs (budget + 1) (p ++ "\\sub")
      = some (Folder.mk (p ++ "\\sub") [] [File.create (p ++ "\\sub") "c.h"]) := by
    rw [Get_succ_eq, hpat, hsubpat, hsub]
    rfl
  rw [Get_succ_eq, hpat, hroot]
  have hdirs : subfolderEntries
      ([⟨".", FILE_ATTRIBUTE_DIRECTORY⟩, ⟨"..", FILE_ATTRIBUTE_DIRECTORY⟩,
          ⟨"a.h", FILE_ATTRIBUTE_ARCHIVE⟩, ⟨"b.cpp", FILE_ATTRIBUTE_ARCHIVE⟩,
          ⟨"sub", FILE_ATTRIBUTE_DIRECTORY⟩] : List FindData).tail
        = [⟨"sub", FILE_ATTRIBUTE_DIRECTORY⟩] := by decide
  have hfiles : regularFileEntries
      ([⟨".", FILE_ATTRIBUTE_DIRECTORY⟩, ⟨"..", FILE_ATTRIBUTE_DIRECTORY⟩,
          ⟨"a.h", FILE_ATTRIBUTE_ARCHIVE⟩, ⟨"b.cpp", FILE_ATTRIBUTE_ARCHIVE⟩,
          ⟨"sub", FILE_ATTRIBUTE_DIRECTORY⟩] : List FindData).tail
        = [⟨"a.h", FILE_ATTRIBUTE_ARCHIVE⟩, ⟨"b.cpp", FILE_ATTRIBUTE_ARCHIVE⟩] := by decide
  rw [hdirs, hfiles]
  simp only [scanEach, hsubpath, hinner]
  rfl

theorem extension_create (d n : String) :
    (File.create d n).ExtensionWithLeadingDot = (File.create "" n).ExtensionWithLeadingDot := by
  unfold File.create File.ExtensionWithLeadingDot
  split <;> rfl

/-- C9 (counterexample): scanning the folder `code` that holds `a.h`, `b.cpp` and the
subfolder `sub` holding `c.h` gives headers with relative paths `code\a.h` and
`code\sub\c.h` and a source with relative path `code\b.cpp`, not `a.h`, `sub/c.h` and
`b.cpp`. -/
theorem scan_scenario_relative_paths :
    (Folder.Get scenarioFs 2 "code").map (fun T => T.GetHeaderFiles.map File.RelativePath)
        = some ["code\\a.h", "code\\sub\\c.h"]
      ∧ (Folder.Get scenarioFs 2 "code").map (fun T => T.GetHeaderFiles.map File.RelativePath)
        ≠ some ["a.h", "sub/c.h"]
      ∧ (Folder.Get scenarioFs 2 "code").map (fun T => T.GetCppFiles.map File.RelativePath)
        = some ["code\\b.cpp"]
      ∧ (Folder.Get scenarioFs 2 "code").map (fun T => T.GetCppFiles.map File.RelativePath)
        ≠ some ["b.cpp"] := by
  decide


/-! ## The scan returns when the budget suffices -/

theorem scanEach_mono {get get' : String → Option Folder} {p : String}
    (hget : ∀ q S, get q = some S → get' q = some S) :
    ∀ {entries : List FindData} {scanned : List Folder},
      scanEach get p entries = some scanned → scanEach get' p entries = some scanned
  | [], scanned, h => by simpa [scanEach] using h
  | e :: es, scanned, h => by
    cases hg : get (p ++ PATH_SEPARATOR ++ e.cFileName) with
    | none => simp [scanEach, hg] at h
    | some sub =>
      cases hs : scanEach get p es with
      | none => simp [scanEach, hg, hs] at h
      | some rest =>
        simp [scanEach, hg, hs] at h
        simp [scanEach, hget _ _ hg, scanEach_mono hget hs, h]

theorem Get_succ_of_some (fs : FileSystem) :
    ∀ (budget : Nat) (p : String) (T : Folder),
      Folder.Get fs budget p = some T → Folder.Get fs (budget + 1) p = some T
  | 0, p, T, h => by simp [Folder.Get] at h
  | budget + 1, p, T, h => by
    rw [Get_succ_eq] at h ⊢
    cases hs : scanEach (Folder.Get fs budget) p
        (subfolderEntries (fs (p ++ PATH_SEPARATOR ++ "*")).tail) with
    | none => simp [hs] at h
    | some scanned =>
      rw [scanEach_mono (Get_succ_of_some fs budget) hs]
      rw [hs] at h
      exact h

theorem Get_of_le (fs : FileSystem) {budget budget' : Nat} (hle : budget ≤ budget')
    {p : String} {T : Folder} (h : Folder.Get fs budget p = some T) :
    Folder.Get fs budget' p = some T := by
  induction hle with
  | refl => exact h
  | step _ ih => exact Get_succ_of_some fs _ p T ih

theorem scanEach_isSome (fs : FileSystem) (p : String) :
    ∀ entries : List FindData,
      (∀ e ∈ entries, ∃ budget T,
        Folder.Get fs budget (p ++ PATH_SEPARATOR ++ e.cFileName) = some T) →
      ∃ budget scanned, scanEach (Folder.Get fs budget) p entries = some scanned
  | [], _ => ⟨0, [], rfl⟩
  | e :: es, h => by
    obtain ⟨b₁, T, hT⟩ := h e (List.mem_cons_self _ _)
    obtain ⟨b₂, scanned, hs⟩ :=
      scanEach_isSome fs p es (fun e' he' => h e' (List.mem_cons_of_mem _ he'))
    refine ⟨max b₁ b₂, T :: scanned, ?_⟩
    have h1 := Get_of_le fs (le_max_left b₁ b₂) hT
    have h2 : scanEach (Folder.Get fs (max b₁ b₂)) p es = some scanned :=
      scanEach_mono (fun q S hq => Get_of_le fs (le_max_right b₁ b₂) hq) hs
    simp [scanEach, h1, h2]

/-- A scan that comes to an end returns a folder once the budget is large enough. -/
theorem Get_returns (fs : FileSystem) {p : String} (h : ScanEnds fs p) :
    ∃ budget T, ∀ budget', budget ≤ budget' → Folder.Get fs budget' p = some T := by
  induction h with
  | intro p _ ih =>
    have hex : ∀ e ∈ subfolderEntries (fs (p ++ PATH_SEPARATOR ++ "*")).tail,
        ∃ budget T, Folder.Get fs budget (p ++ PATH_SEPARATOR ++ e.cFileName) = some T :=
      fun e he => by
        obtain ⟨b, T, hb⟩ := ih e he
        exact ⟨b, T, hb b (le_refl b)⟩
    obtain ⟨b, scanned, hs⟩ := scanEach_isSome fs p _ hex
    have hfirst : Folder.Get fs (b + 1) p
        = some (Folder.mk p scanned
            ((regularFileEntries (fs (p ++ PATH_SEPARATOR ++ "*")).tail).map
              (fun file_data => File.create p file_data.cFileName))) := by
      rw [Get_succ_eq, hs]
      rfl
    exact ⟨b + 1, _, fun b' hb' => Get_of_le fs hb' hfirst⟩

/-! ## Files without an extension -/

theorem dot_mem_of_endsIn {name : String} {r : List Char} (h : EndsIn name ⟨'.' :: r⟩) :
    '.' ∈ name.data := by
  obtain ⟨pre, hpre⟩ := h
  rw [← hpre]
  simp

/-- C11: a file whose name has no dot has the empty extension, and in every folder tree that
stores it, it is in neither the header list nor the `.cpp` list, while it is still among the
files stored in the tree. -/
theorem no_dot_excluded (file : File) (T : Folder) (hname : '.' ∉ file.Name.data)
    (hstored : file ∈ T.allFiles) :
    file.ExtensionWithLeadingDot = ""
      ∧ file ∉ T.GetHeaderFiles
      ∧ file ∉ T.GetCppFiles
      ∧ file ∈ T.allFiles := by
  refine ⟨extension_of_no_dot hname, ?_, ?_, hstored⟩
  · rw [GetHeaderFiles_eq_filter, List.mem_filter]
    rintro ⟨-, hends⟩
    exact hname (dot_mem_of_endsIn (r := ['h']) (by simpa using hends))
  · rw [GetCppFiles_eq_filter, List.mem_filter]
    rintro ⟨-, hends⟩
    exact hname (dot_mem_of_endsIn (r := ['c', 'p', 'p']) (by simpa using hends))

/-- C11 (witness): the file `README` in a folder that also stores `a.h` and `b.cpp`. -/
theorem no_dot_excluded_witness :
    '.' ∉ (File.create "code" "README").Name.data
      ∧ File.create "code" "README" ∈ readmeTree.allFiles
      ∧ ((File.create "code" "README").ExtensionWithLeadingDot = ""
        ∧ File.create "code" "README" ∉ readmeTree.GetHeaderFiles
        ∧ File.create "code" "README" ∉ readmeTree.GetCppFiles
        ∧ File.create "code" "README" ∈ readmeTree.allFiles) :=
  ⟨by decide, by decide,
    no_dot_excluded (File.create "code" "README") readmeTree (by decide) (by decide)⟩

/-! ## Lemmas on the written text -/

theorem foldl_append_eq (init : String) :
    ∀ l : List String, l.foldl (fun r s => r ++ s) init = init ++ String.join l
  | [] => by simp [String.join]
  | a :: l => by
    have h1 := foldl_append_eq (init ++ a) l
    have h2 := foldl_append_eq ("" ++ a) l
    simp only [String.join, List.foldl_cons] at h1 h2 ⊢
    rw [h1, h2, String.empty_append, String.append_assoc]

theorem join_cons (a : String) (l : List String) : String.join (a :: l) = a ++ String.join l := by
  have h := foldl_append_eq ("" ++ a) l
  simp only [String.join, List.foldl_cons] at h ⊢
  rw [h, String.empty_append]

theorem join_append (l₁ l₂ : List String) :
    String.join (l₁ ++ l₂) = String.join l₁ ++ String.join l₂ := by
  induction l₁ with
  | nil => simp [String.join]
  | cons a l ih => rw [List.cons_append, join_cons, join_cons, ih, String.append_assoc]

theorem writeLines_append (l₁ l₂ : List String) :
    writeLines (l₁ ++ l₂) = writeLines l₁ ++ writeLines l₂ := by
  simp [writeLines, join_append]

theorem foldl_write {α : Type} (g : α → String) :
    ∀ (l : List α) (file : String),
      l.foldl (fun file a => file ++ g a) file = file ++ String.join (l.map g)
  | [], file => by simp [String.join]
  | a :: l, file => by
    rw [List.foldl_cons, foldl_write g l, List.map_cons, join_cons, String.append_assoc]

/-! ## The project file -/

/-- C12: the text `ProjectFile::Write` adds to the stream is the fixed opening, one line
`    <ClInclude Include="<RelativePath>" />` per header file in list order, the fixed
separator, one line `    <ClCompile Include="<RelativePath>" />` per `.cpp` file in list
order, and a remainder that depends on the project name alone. The remainder holds the line
`    <None Include="build.bat" />`, and its property groups and property sheet groups with a
configuration condition are those of `Debug|Win32` and `Release|Win32`, the two
configurations the opening lists. -/
theorem ProjectFile_Write_layout (project_name : String) (header_files cpp_files : List File)
    (file : String) :
    ProjectFile.Write project_name header_files cpp_files file
        = file ++ ProjectFile.beforeHeaders
            ++ String.join (header_files.map (fun header_file =>
                "    <ClInclude Include=\"" ++ header_file.RelativePath ++ "\" />" ++ "\n"))
            ++ ProjectFile.betweenLists
            ++ String.join (cpp_files.map (fun cpp_file =>
                "    <ClCompile Include=\"" ++ cpp_file.RelativePath ++ "\" />" ++ "\n"))
            ++ ProjectFile.remainder project_name
      ∧ ProjectFile.beforeHeaders = writeLines ProjectFile.beforeHeadersLines
      ∧ ProjectFile.betweenLists = writeLines ["  </ItemGroup>", "  <ItemGroup>"]
      ∧ ProjectFile.remainder project_name
          = writeLines (ProjectFile.remainderLines project_name)
      ∧ "    <None Include=\"build.bat\" />" ∈ ProjectFile.remainderLines project_name
      ∧ ProjectFile.beforeHeadersLines.filter
            (fun line => startsWith line "    <ProjectConfiguration Include=")
          = ["    <ProjectConfiguration Include=\"Debug|Win32\">",
              "    <ProjectConfiguration Include=\"Release|Win32\">"]
      ∧ (ProjectFile.remainderLines project_name).filter
            (fun line => startsWith line "  <PropertyGroup Condition=")
          = ["  <PropertyGroup Condition=\"\x27$(Configuration)|$(Platform)\x27==\x27Debug|Win32\x27\" Label=\"Configuration\">",
              "  <PropertyGroup Condition=\"\x27$(Configuration)|$(Platform)\x27==\x27Release|Win32\x27\" Label=\"Configuration\">",
              "  <PropertyGroup Condition=\"\x27$(Configuration)|$(Platform)\x27==\x27Debug|Win32\x27\">",
              "  <PropertyGroup Condition=\"\x27$(Configuration)|$(Platform)\x27==\x27Release|Win32\x27\">"]
      ∧ (ProjectFile.remainderLines project_name).filter
            (fun line => startsWith line "  <ImportGroup Label=\"PropertySheets\" Condition=")
          = ["  <ImportGroup Label=\"PropertySheets\" Condition=\"\x27$(Configuration)|$(Platform)\x27==\x27Debug|Win32\x27\">",
              "  <ImportGroup Label=\"PropertySheets\" Condition=\"\x27$(Configuration)|$(Platform)\x27==\x27Release|Win32\x27\">"] := by
  refine ⟨?_, rfl, rfl, rfl, ?_, ?_, ?_, ?_⟩
  · simp only [ProjectFile.Write, foldl_write, ProjectFile.ClIncludeLine,
      ProjectFile.ClCompileLine, endl]
  · simp [ProjectFile.remainderLines]
  · decide
  · simp [ProjectFile.remainderLines, startsWith]
  · simp [ProjectFile.remainderLines, startsWith]

/-! ## The project filters file -/

theorem ProjectFiltersFile_Write_eq (header_files cpp_files : List File)
    (folders : List Folder) (file : String) :
    ProjectFiltersFile.Write header_files cpp_files folders file
      = file ++ ProjectFiltersFile.beforeCppFiles
          ++ String.join (cpp_files.map ProjectFiltersFile.ClCompileEntry)
          ++ ProjectFiltersFile.beforeFilters
          ++ String.join (folders.map ProjectFiltersFile.FilterEntry)
          ++ ProjectFiltersFile.beforeHeaders
          ++ String.join (header_files.map ProjectFiltersFile.ClIncludeEntry)
          ++ ProjectFiltersFile.remainder := by
  simp only [ProjectFiltersFile.Write, foldl_write]

/-- C13 (as amended): the text `ProjectFiltersFile::Write` adds to the stream holds one
`ClCompile` entry per `.cpp` file and one `ClInclude` entry per header file, each with the
file's relative path as `Include` and the file's folder path as `Filter` label, and one
filter group `<Filter Include="<RelativePath>">` per element of the folder list, in list
order: a folder that occurs several times in the list gets one group per occurrence. -/
theorem ProjectFiltersFile_Write_layout (header_files cpp_files : List File)
    (folders : List Folder) (file : String) :
    ProjectFiltersFile.Write header_files cpp_files folders file
        = file ++ ProjectFiltersFile.beforeCppFiles
            ++ String.join (cpp_files.map (fun cpp_file =>
                writeLines
                  ["    <ClCompile Include=\"" ++ cpp_file.RelativePath ++ "\">",
                    "      <Filter>" ++ cpp_file.RelativeFolderPath ++ "</Filter>",
                    "    </ClCompile>"]))
            ++ ProjectFiltersFile.beforeFilters
            ++ String.join (folders.map (fun folder =>
                writeLines
                  ["    <Filter Include=\"" ++ folder.RelativePath ++ "\">",
                    "      <UniqueIdentifier>\x7b96873809-db68-49b8-8a4b-a40a3c3972f6\x7d</UniqueIdentifier>",
                    "    </Filter>"]))
            ++ ProjectFiltersFile.beforeHeaders
            ++ String.join (header_files.map (fun header_file =>
                writeLines
                  ["    <ClInclude Include=\"" ++ header_file.RelativePath ++ "\">",
                    "      <Filter>" ++ header_file.RelativeFolderPath ++ "</Filter>",
                    "    </ClInclude>"]))
            ++ ProjectFiltersFile.remainder
      ∧ (folders.map ProjectFiltersFile.FilterEntry).length = folders.length := by
  refine ⟨?_, by simp⟩
  rw [ProjectFiltersFile_Write_eq]
  have h1 : ProjectFiltersFile.ClCompileEntry = fun cpp_file =>
      writeLines
        ["    <ClCompile Include=\"" ++ cpp_file.RelativePath ++ "\">",
          "      <Filter>" ++ cpp_file.RelativeFolderPath ++ "</Filter>",
          "    </ClCompile>"] := by
    funext f
    simp [ProjectFiltersFile.ClCompileEntry, writeLines, join_cons, String.join,
      String.append_assoc]
  have h2 : ProjectFiltersFile.FilterEntry = fun folder =>
      writeLines
        ["    <Filter Include=\"" ++ folder.RelativePath ++ "\">",
          "      <UniqueIdentifier>\x7b96873809-db68-49b8-8a4b-a40a3c3972f6\x7d</UniqueIdentifier>",
          "    </Filter>"] := by
    funext f
    simp [ProjectFiltersFile.FilterEntry, writeLines, join_cons, String.join,
      String.append_assoc]
  have h3 : ProjectFiltersFile.ClIncludeEntry = fun header_file =>
      writeLines
        ["    <ClInclude Include=\"" ++ header_file.RelativePath ++ "\">",
          "      <Filter>" ++ header_file.RelativeFolderPath ++ "</Filter>",
          "    </ClInclude>"] := by
    funext f
    simp [ProjectFiltersFile.ClIncludeEntry, writeLines, join_cons, String.join,
      String.append_assoc]
  rw [h1, h2, h3]

set_option maxRecDepth 100000 in
/-- C13 (counterexample): for the folder list in which the one folder `code` occurs twice,
the text declares the filter group of `code` twice, not once. -/
theorem ProjectFiltersFile_Write_repeated_folder :
    (repeatedFolders.map Folder.RelativePath).dedup = ["code"]
      ∧ ProjectFiltersFile.Write [] [] repeatedFolders ""
        = ProjectFiltersFile.beforeCppFiles ++ ProjectFiltersFile.beforeFilters
            ++ ProjectFiltersFile.FilterEntry (Folder.create "code")
            ++ ProjectFiltersFile.FilterEntry (Folder.create "code")
            ++ ProjectFiltersFile.beforeHeaders ++ ProjectFiltersFile.remainder
      ∧ ProjectFiltersFile.Write [] [] repeatedFolders ""
        ≠ ProjectFiltersFile.beforeCppFiles ++ ProjectFiltersFile.beforeFilters
            ++ ProjectFiltersFile.FilterEntry (Folder.create "code")
            ++ ProjectFiltersFile.beforeHeaders ++ ProjectFiltersFile.remainder := by
  decide

/-! ## The build script -/

theorem BuildScriptBatchFile_Write_eq (project_cpp_filename : String) (code_folder : Folder)
    (file : String) :
    BuildScriptBatchFile.Write project_cpp_filename code_folder file
      = file ++ BuildScriptBatchFile.beforeCompile
          ++ (BuildScriptBatchFile.compileLine project_cpp_filename code_folder.RelativePath
              ++ "\n")
          ++ BuildScriptBatchFile.afterCompile := by
  simp only [BuildScriptBatchFile.Write, BuildScriptBatchFile.beforeCompile,
    BuildScriptBatchFile.afterCompile, BuildScriptBatchFile.compileLine, writeLines,
    List.map_cons, List.map_nil, join_cons, endl, String.append_assoc]
  simp only [String.join, List.foldl_nil, String.append_empty, String.empty_append]

/-- C14: the text `BuildScriptBatchFile::Write` adds to the stream is a fixed opening, the
one compile line `    cl.exe /Zi /EHa /WX /W4 /MTd "..\<m>" /I "..\<r>" user32.lib gdi32.lib`
for the main source file `m` and the code folder path `r`, and a fixed ending; when the scan
of `p` returns, `main` writes `build.bat` with `m` the file `<ProjectName>.cpp` and `r` the
scanned path `p`. -/
theorem BuildScriptBatchFile_Write_layout (m : String) (code_folder : Folder) (file : String)
    (fs : FileSystem) (budget : Nat) (program project_name p : String) (T : Folder)
    (h : Folder.Get fs budget p = some T) :
    BuildScriptBatchFile.Write m code_folder file
        = file ++ BuildScriptBatchFile.beforeCompile
            ++ ("    cl.exe /Zi /EHa /WX /W4 /MTd \"..\\" ++ m ++ "\" /I \"..\\"
                ++ code_folder.RelativePath ++ "\" user32.lib gdi32.lib" ++ "\n")
            ++ BuildScriptBatchFile.afterCompile
      ∧ ∃ r : MainResult, main fs budget [program, project_name, p] = some r
          ∧ ("build.bat",
              BuildScriptBatchFile.beforeCompile
                ++ ("    cl.exe /Zi /EHa /WX /W4 /MTd \"..\\" ++ (project_name ++ ".cpp")
                    ++ "\" /I \"..\\" ++ p ++ "\" user32.lib gdi32.lib" ++ "\n")
                ++ BuildScriptBatchFile.afterCompile) ∈ r.files := by
  have hline : ∀ a b : String,
      "    cl.exe /Zi /EHa /WX /W4 /MTd \"..\\" ++ a ++ "\" /I \"..\\" ++ b
          ++ "\" user32.lib gdi32.lib" ++ "\n"
        = BuildScriptBatchFile.compileLine a b ++ "\n" := fun a b => rfl
  refine ⟨?_, ?_⟩
  · rw [BuildScriptBatchFile_Write_eq, hline]
  · have hp := (Get_scanned fs budget p T h).1
    simp only [main, h, List.getElem?_cons_succ, List.getElem?_cons_zero]
    refine ⟨_, rfl, ?_⟩
    rw [hline]
    simp [BuildScriptBatchFile_Write_eq, hp, CPP_FILE_EXTENSION]

/-- C14 (witness): the build script of the project `Game` for the scanned folder `code`. -/
theorem BuildScriptBatchFile_Write_layout_witness :
    Folder.Get scenarioFs 2 "code" = some scenarioTree
      ∧ (BuildScriptBatchFile.Write "Game.cpp" scenarioTree ""
          = "" ++ BuildScriptBatchFile.beforeCompile
              ++ ("    cl.exe /Zi /EHa /WX /W4 /MTd \"..\\" ++ "Game.cpp" ++ "\" /I \"..\\"
                  ++ scenarioTree.RelativePath ++ "\" user32.lib gdi32.lib" ++ "\n")
              ++ BuildScriptBatchFile.afterCompile
        ∧ ∃ r : MainResult,
            main scenarioFs 2 ["GenerateProject.exe", "Game", "code"] = some r
              ∧ ("build.bat",
                  BuildScriptBatchFile.beforeCompile
                    ++ ("    cl.exe /Zi /EHa /WX /W4 /MTd \"..\\" ++ ("Game" ++ ".cpp")
                        ++ "\" /I \"..\\" ++ "code" ++ "\" user32.lib gdi32.lib" ++ "\n")
                    ++ BuildScriptBatchFile.afterCompile) ∈ r.files) :=
  ⟨by rfl,
    BuildScriptBatchFile_Write_layout "Game.cpp" scenarioTree "" scenarioFs 2
      "GenerateProject.exe" "Game" "code" scenarioTree (by rfl)⟩

/-! ## The solution file -/

theorem ProjectFile_Write_eq (project_name : String) (header_files cpp_files : List File)
    (file : String) :
    ProjectFile.Write project_name header_files cpp_files file
      = file ++ ProjectFile.beforeHeaders
          ++ String.join (header_files.map ProjectFile.ClIncludeLine)
          ++ ProjectFile.betweenLists
          ++ String.join (cpp_files.map ProjectFile.ClCompileLine)
          ++ ProjectFile.remainder project_name := by
  simp only [ProjectFile.Write, foldl_write]

/-- C15: the solution file names the project `n` and its project file by the quoted name
`"<n>.vcxproj"`, and the identifier that ends its `Project` line and starts every line of its
section `ProjectConfigurationPlatforms` is the one the project file, written for any project
name and file lists, carries in its only `<ProjectGuid>` line. -/
theorem SolutionFile_Write_layout (project_name file : String) (other_name : String)
    (header_files cpp_files : List File) (other_file : String) :
    SolutionFile.Write project_name file
        = file ++ writeLines
            (["Microsoft Visual Studio Solution File, Format Version 12.00",
                "# Visual Studio 2013",
                "VisualStudioVersion = 12.0.31101.0",
                "MinimumVisualStudioVersion = 10.0.40219.1",
                "Project(\"\x7b8BC9CEB8-8B4A-11D0-8D11-00A0C91BC942\x7d\") = \""
                  ++ project_name ++ "\", \"" ++ (project_name ++ ".vcxproj") ++ "\", \""
                  ++ PROJECT_GUID,
                "EndProject",
                "Global",
                "    GlobalSection(SolutionConfigurationPlatforms) = preSolution",
                "        CommandLineBuild|Win32 = CommandLineBuild|Win32",
                "        Debug|Win32 = Debug|Win32",
                "        Release|Win32 = Release|Win32",
                "    EndGlobalSection",
                "    GlobalSection(ProjectConfigurationPlatforms) = postSolution"]
              ++ SolutionFile.projectConfigurationPlatforms.map
                  (fun rest => "        " ++ PROJECT_GUID ++ rest)
              ++ ["    EndGlobalSection",
                "    GlobalSection(SolutionProperties) = preSolution",
                "        HideSolutionNode = FALSE",
                "    EndGlobalSection",
                "EndGlobal"])
      ∧ ProjectFile.Write other_name header_files cpp_files other_file
        = other_file ++ ProjectFile.beforeHeaders
            ++ String.join (header_files.map ProjectFile.ClIncludeLine)
            ++ ProjectFile.betweenLists
            ++ String.join (cpp_files.map ProjectFile.ClCompileLine)
            ++ writeLines (ProjectFile.remainderLines other_name)
      ∧ (ProjectFile.remainderLines other_name).filter
            (fun line => startsWith line "    <ProjectGuid>")
          = ["    <ProjectGuid>" ++ PROJECT_GUID ++ "</ProjectGuid>"] := by
  have hproj : "Project(\"\x7b8BC9CEB8-8B4A-11D0-8D11-00A0C91BC942\x7d\") = \""
        ++ project_name ++ "\", \"" ++ project_name
        ++ ".vcxproj\", \"\x7b46D99A72-17AF-4E62-809F-EECB637F6EE1\x7d"
      = "Project(\"\x7b8BC9CEB8-8B4A-11D0-8D11-00A0C91BC942\x7d\") = \""
        ++ project_name ++ "\", \"" ++ (project_name ++ ".vcxproj") ++ "\", \""
        ++ PROJECT_GUID := by
    simp only [String.append_assoc]
    rfl
  refine ⟨?_, ProjectFile_Write_eq other_name header_files cpp_files other_file, ?_⟩
  · unfold SolutionFile.Write
    rw [hproj]
    rfl
  · simp [ProjectFile.remainderLines, startsWith, PROJECT_GUID]

/-! ## Filter labels and filter groups -/

mutual
theorem exists_folder_of_mem_allFiles :
    ∀ (T : Folder) (f : File), f ∈ T.allFiles → ∃ F ∈ T.GetAllFolders, f ∈ F.Files
  | .mk p subs files, f, h => by
    rw [allFiles_eq, List.mem_append] at h
    rcases h with h | h
    · refine ⟨Folder.mk p subs files, ?_, h⟩
      rw [GetAllFolders_eq]
      exact List.mem_cons_self _ _
    · obtain ⟨F, hF, hf⟩ := exists_folder_of_mem_flatMap_allFiles subs f h
      refine ⟨F, ?_, hf⟩
      rw [GetAllFolders_eq]
      exact List.mem_cons_of_mem _ hF
theorem exists_folder_of_mem_flatMap_allFiles :
    ∀ (subs : List Folder) (f : File), f ∈ subs.flatMap Folder.allFiles →
      ∃ F ∈ subs.flatMap Folder.GetAllFolders, f ∈ F.Files
  | [], f, h => by simp at h
  | s :: rest, f, h => by
    rw [List.flatMap_cons, List.mem_append] at h
    rcases h with h | h
    · obtain ⟨F, hF, hf⟩ := exists_folder_of_mem_allFiles s f h
      exact ⟨F, by rw [List.flatMap_cons]; exact List.mem_append_left _ hF, hf⟩
    · obtain ⟨F, hF, hf⟩ := exists_folder_of_mem_flatMap_allFiles rest f h
      exact ⟨F, by rw [List.flatMap_cons]; exact List.mem_append_right _ hF, hf⟩
end

theorem Scanned_folder_of_file {T : Folder} (hT : Scanned T) {f : File} (hf : f ∈ T.allFiles) :
    ∃ F ∈ T.GetAllFolders, f.RelativeFolderPath = F.RelativePath := by
  obtain ⟨F, hF, hfF⟩ := exists_folder_of_mem_allFiles T f hf
  exact ⟨F, hF, Scanned_files (Scanned_of_mem_GetAllFolders hT F hF) f hfF⟩

/-- C16: in the tree `T` a scan of `p` returns, every file of the header list and of the
`.cpp` list has as folder path the path of a folder of `GetAllFolders(T)`. `main` writes the
filters file from these lists (with the file `<ProjectName>.cpp` added to the `.cpp` list)
and from `GetAllFolders(T)`: each file gets an entry whose `<Filter>` label is the file's
folder path, each folder a group `<Filter Include="<RelativePath>">`. So for every file
collected from the tree, the label written in its entry is the path of a folder of
`GetAllFolders(T)`, whose group, with that label as `Include`, is in the same text. -/
theorem filter_labels_declared (fs : FileSystem) (budget : Nat)
    (program project_name p : String) (T : Folder) (h : Folder.Get fs budget p = some T) :
    (∀ f ∈ T.GetHeaderFiles, ∃ F ∈ T.GetAllFolders, f.RelativeFolderPath = F.RelativePath)
      ∧ (∀ f ∈ T.GetCppFiles, ∃ F ∈ T.GetAllFolders, f.RelativeFolderPath = F.RelativePath)
      ∧ (∃ r : MainResult, main fs budget [program, project_name, p] = some r
          ∧ (project_name ++ ".vcxproj.filters",
              writeLines
                  ["<?xml version=\"1.0\" encoding=\"utf-8\"?>",
                    "<Project ToolsVersion=\"4.0\" xmlns=\"http://schemas.microsoft.com/developer/msbuild/2003\">",
                    "  <ItemGroup>"]
                ++ String.join ((T.GetCppFiles ++ [File.create "" (project_name ++ ".cpp")]).map
                    (fun cpp_file =>
                      writeLines
                  ["    <ClCompile Include=\"" ++ cpp_file.RelativePath ++ "\">",
                    "      <Filter>" ++ cpp_file.RelativeFolderPath ++ "</Filter>",
                    "    </ClCompile>"]))
                ++ writeLines
                  ["  </ItemGroup>",
                    "  <ItemGroup>",
                    "    <None Include=\"build.bat\" />",
                    "  </ItemGroup>",
                    "  <ItemGroup>"]
                ++ String.join (T.GetAllFolders.map (fun folder =>
                      writeLines
                  ["    <Filter Include=\"" ++ folder.RelativePath ++ "\">",
                    "      <UniqueIdentifier>\x7b96873809-db68-49b8-8a4b-a40a3c3972f6\x7d</UniqueIdentifier>",
                    "    </Filter>"]))
                ++ writeLines ["  </ItemGroup>", "  <ItemGroup>"]
                ++ String.join (T.GetHeaderFiles.map (fun header_file =>
                      writeLines
                  ["    <ClInclude Include=\"" ++ header_file.RelativePath ++ "\">",
                    "      <Filter>" ++ header_file.RelativeFolderPath ++ "</Filter>",
                    "    </ClInclude>"]))
                ++ writeLines ["  </ItemGroup>", "</Project>"]) ∈ r.files)
      ∧ ∀ f ∈ T.GetHeaderFiles ++ T.GetCppFiles, ∃ F ∈ T.GetAllFolders,
          ProjectFiltersFile.FilterEntry F
              = writeLines
                  ["    <Filter Include=\"" ++ f.RelativeFolderPath ++ "\">",
                    "      <UniqueIdentifier>\x7b96873809-db68-49b8-8a4b-a40a3c3972f6\x7d</UniqueIdentifier>",
                    "    </Filter>"]
            ∧ ProjectFiltersFile.ClCompileEntry f
              = writeLines
                  ["    <ClCompile Include=\"" ++ f.RelativePath ++ "\">",
                    "      <Filter>" ++ F.RelativePath ++ "</Filter>",
                    "    </ClCompile>"]
            ∧ ProjectFiltersFile.ClIncludeEntry f
              = writeLines
                  ["    <ClInclude Include=\"" ++ f.RelativePath ++ "\">",
                    "      <Filter>" ++ F.RelativePath ++ "</Filter>",
                    "    </ClInclude>"] := by
  have hT := (Get_scanned fs budget p T h).2
  have hhead : ∀ f ∈ T.GetHeaderFiles, f ∈ T.allFiles := fun f hf => by
    rw [GetHeaderFiles_eq_filter] at hf
    exact (List.mem_filter.mp hf).1
  have hcpp : ∀ f ∈ T.GetCppFiles, f ∈ T.allFiles := fun f hf => by
    rw [GetCppFiles_eq_filter] at hf
    exact (List.mem_filter.mp hf).1
  have ClCompileEntry_eq : ProjectFiltersFile.ClCompileEntry = fun cpp_file =>
      writeLines
        ["    <ClCompile Include=\"" ++ cpp_file.RelativePath ++ "\">",
          "      <Filter>" ++ cpp_file.RelativeFolderPath ++ "</Filter>",
          "    </ClCompile>"] := by
    funext f
    simp [ProjectFiltersFile.ClCompileEntry, writeLines, join_cons, String.join,
      String.append_assoc]
  have ClIncludeEntry_eq : ProjectFiltersFile.ClIncludeEntry = fun header_file =>
      writeLines
        ["    <ClInclude Include=\"" ++ header_file.RelativePath ++ "\">",
          "      <Filter>" ++ header_file.RelativeFolderPath ++ "</Filter>",
          "    </ClInclude>"] := by
    funext f
    simp [ProjectFiltersFile.ClIncludeEntry, writeLines, join_cons, String.join,
      String.append_assoc]
  have FilterEntry_eq : ProjectFiltersFile.FilterEntry = fun folder =>
      writeLines
        ["    <Filter Include=\"" ++ folder.RelativePath ++ "\">",
          "      <UniqueIdentifier>\x7b96873809-db68-49b8-8a4b-a40a3c3972f6\x7d</UniqueIdentifier>",
          "    </Filter>"] := by
    funext F
    simp [ProjectFiltersFile.FilterEntry, writeLines, join_cons, String.join,
      String.append_assoc]
  refine ⟨fun f hf => Scanned_folder_of_file hT (hhead f hf),
    fun f hf => Scanned_folder_of_file hT (hcpp f hf), ?_, fun f hf => ?_⟩
  · simp only [main, h, List.getElem?_cons_succ, List.getElem?_cons_zero]
    refine ⟨_, rfl, ?_⟩
    have htext := ProjectFiltersFile_Write_eq T.GetHeaderFiles
      (T.GetCppFiles ++ [File.create "" (project_name ++ CPP_FILE_EXTENSION)])
      T.GetAllFolders ""
    rw [ClCompileEntry_eq, ClIncludeEntry_eq, FilterEntry_eq, String.empty_append] at htext
    simp only [List.mem_cons, Prod.mk.injEq]
    right; right; left
    exact ⟨rfl, htext.symm⟩
  · have hall : f ∈ T.allFiles := by
      rcases List.mem_append.mp hf with hf | hf
      · exact hhead f hf
      · exact hcpp f hf
    obtain ⟨F, hF, hpath⟩ := Scanned_folder_of_file hT hall
    refine ⟨F, hF, ?_, ?_, ?_⟩
    · rw [FilterEntry_eq, hpath]
    · rw [ClCompileEntry_eq, ← hpath]
    · rw [ClIncludeEntry_eq, ← hpath]

/-- C16 (witness): the scan of `code` in the example file system, for the project `Game`. -/
theorem filter_labels_declared_witness :
    Folder.Get scenarioFs 2 "code" = some scenarioTree
      ∧ ((∀ f ∈ scenarioTree.GetHeaderFiles, ∃ F ∈ scenarioTree.GetAllFolders, f.RelativeFolderPath = F.RelativePath)
        ∧ (∀ f ∈ scenarioTree.GetCppFiles, ∃ F ∈ scenarioTree.GetAllFolders, f.RelativeFolderPath = F.RelativePath)
        ∧ (∃ r : MainResult, main scenarioFs 2 ["GenerateProject.exe", "Game", "code"] = some r
            ∧ ("Game" ++ ".vcxproj.filters",
                writeLines
                    ["<?xml version=\"1.0\" encoding=\"utf-8\"?>",
                      "<Project ToolsVersion=\"4.0\" xmlns=\"http://schemas.microsoft.com/developer/msbuild/2003\">",
                      "  <ItemGroup>"]
                  ++ String.join ((scenarioTree.GetCppFiles ++ [File.create "" ("Game" ++ ".cpp")]).map
                      (fun cpp_file =>
                        writeLines
                    ["    <ClCompile Include=\"" ++ cpp_file.RelativePath ++ "\">",
                      "      <Filter>" ++ cpp_file.RelativeFolderPath ++ "</Filter>",
                      "    </ClCompile>"]))
                  ++ writeLines
                    ["  </ItemGroup>",
                      "  <ItemGroup>",
                      "    <None Include=\"build.bat\" />",
                      "  </ItemGroup>",
                      "  <ItemGroup>"]
                  ++ String.join (scenarioTree.GetAllFolders.map (fun folder =>
                        writeLines
                    ["    <Filter Include=\"" ++ folder.RelativePath ++ "\">",
                      "      <UniqueIdentifier>\x7b96873809-db68-49b8-8a4b-a40a3c3972f6\x7d</UniqueIdentifier>",
                      "    </Filter>"]))
                  ++ writeLines ["  </ItemGroup>", "  <ItemGroup>"]
                  ++ String.join (scenarioTree.GetHeaderFiles.map (fun header_file =>
                        writeLines
                    ["    <ClInclude Include=\"" ++ header_file.RelativePath ++ "\">",
                      "      <Filter>" ++ header_file.RelativeFolderPath ++ "</Filter>",
                      "    </ClInclude>"]))
                  ++ writeLines ["  </ItemGroup>", "</Project>"]) ∈ r.files)
        ∧ ∀ f ∈ scenarioTree.GetHeaderFiles ++ scenarioTree.GetCppFiles, ∃ F ∈ scenarioTree.GetAllFolders,
            ProjectFiltersFile.FilterEntry F
                = writeLines
                    ["    <Filter Include=\"" ++ f.RelativeFolderPath ++ "\">",
                      "      <UniqueIdentifier>\x7b96873809-db68-49b8-8a4b-a40a3c3972f6\x7d</UniqueIdentifier>",
                      "    </Filter>"]
              ∧ ProjectFiltersFile.ClCompileEntry f
                = writeLines
                    ["    <ClCompile Include=\"" ++ f.RelativePath ++ "\">",
                      "      <Filter>" ++ F.RelativePath ++ "</Filter>",
                      "    </ClCompile>"]
              ∧ ProjectFiltersFile.ClIncludeEntry f
                = writeLines
                    ["    <ClInclude Include=\"" ++ f.RelativePath ++ "\">",
                      "      <Filter>" ++ F.RelativePath ++ "</Filter>",
                      "    </ClInclude>"]) :=
  ⟨by rfl,
    filter_labels_declared scenarioFs 2 "GenerateProject.exe" "Game" "code" scenarioTree
      (by rfl)⟩

/-! ## The scenario of a small tree -/

/-- C9 (as amended): when the search of the scanned path `p` yields `.`, `..`, the files `a.h`
and `b.cpp` and the directory `sub`, and the search of `sub` yields `.`, `..` and the file
`c.h`, the header list holds `a.h` of folder `p` and `c.h` of folder `p\sub`, with relative
paths `p\a.h` (just `a.h` when `p` is empty) and `p\sub\c.h`, the source list holds `b.cpp`
of folder `p`, with relative path `p\b.cpp`, and the project file written by `main` is the
opening, the two lines `    <ClInclude Include="..." />` of `p\a.h` and `p\sub\c.h`, the
separator, the two lines `    <ClCompile Include="..." />` of `p\b.cpp` and of
`<ProjectName>.cpp`, and the remainder; opening and remainder hold no such line. -/
theorem main_scenario (fs : FileSystem) (budget : Nat) (program project_name p : String)
    (hroot : fs (p ++ "\\*")
      = [⟨".", FILE_ATTRIBUTE_DIRECTORY⟩, ⟨"..", FILE_ATTRIBUTE_DIRECTORY⟩,
          ⟨"a.h", FILE_ATTRIBUTE_ARCHIVE⟩, ⟨"b.cpp", FILE_ATTRIBUTE_ARCHIVE⟩,
          ⟨"sub", FILE_ATTRIBUTE_DIRECTORY⟩])
    (hsub : fs (p ++ "\\sub\\*")
      = [⟨".", FILE_ATTRIBUTE_DIRECTORY⟩, ⟨"..", FILE_ATTRIBUTE_DIRECTORY⟩,
          ⟨"c.h", FILE_ATTRIBUTE_ARCHIVE⟩]) :
    ∃ T : Folder, Folder.Get fs (budget + 2) p = some T
      ∧ T.GetHeaderFiles = [File.create p "a.h", File.create (p ++ "\\sub") "c.h"]
      ∧ T.GetHeaderFiles.map File.RelativePath
          = [if p = "" then "a.h" else p ++ "\\a.h", p ++ "\\sub\\c.h"]
      ∧ T.GetCppFiles = [File.create p "b.cpp"]
      ∧ T.GetCppFiles.map File.RelativePath = [if p = "" then "b.cpp" else p ++ "\\b.cpp"]
      ∧ (∃ r : MainResult, main fs (budget + 2) [program, project_name, p] = some r
          ∧ r.header_files = T.GetHeaderFiles
          ∧ r.cpp_files = T.GetCppFiles ++ [File.create "" (project_name ++ ".cpp")]
          ∧ (project_name ++ ".vcxproj",
              writeLines ProjectFile.beforeHeadersLines
                ++ ("    <ClInclude Include=\""
                    ++ (if p = "" then "a.h" else p ++ "\\a.h") ++ "\" />" ++ "\n")
                ++ ("    <ClInclude Include=\"" ++ (p ++ "\\sub\\c.h") ++ "\" />" ++ "\n")
                ++ writeLines ["  </ItemGroup>", "  <ItemGroup>"]
                ++ ("    <ClCompile Include=\""
                    ++ (if p = "" then "b.cpp" else p ++ "\\b.cpp") ++ "\" />" ++ "\n")
                ++ ("    <ClCompile Include=\"" ++ (project_name ++ ".cpp") ++ "\" />" ++ "\n")
                ++ writeLines (ProjectFile.remainderLines project_name)) ∈ r.files)
      ∧ ProjectFile.beforeHeadersLines.filter (fun line =>
            startsWith line "    <ClInclude Include="
              || startsWith line "    <ClCompile Include=") = []
      ∧ (ProjectFile.remainderLines project_name).filter (fun line =>
            startsWith line "    <ClInclude Include="
              || startsWith line "    <ClCompile Include=") = [] := by
  have hget := Get_scenario fs budget p hroot hsub
  have e1 : (File.create "" "a.h").ExtensionWithLeadingDot = ".h" := by decide
  have e2 : (File.create "" "b.cpp").ExtensionWithLeadingDot = ".cpp" := by decide
  have e3 : (File.create "" "c.h").ExtensionWithLeadingDot = ".h" := by decide
  have hh : (Folder.mk p
          [Folder.mk (p ++ "\\sub") [] [File.create (p ++ "\\sub") "c.h"]]
          [File.create p "a.h", File.create p "b.cpp"]).GetHeaderFiles
      = [File.create p "a.h", File.create (p ++ "\\sub") "c.h"] := by
    simp [Folder.GetHeaderFiles, GetHeaderFilesLoop, headerFilesOf, HEADER_FILE_EXTENSION,
      extension_create p, extension_create (p ++ "\\sub"), e1, e2, e3]
  have hc : (Folder.mk p
          [Folder.mk (p ++ "\\sub") [] [File.create (p ++ "\\sub") "c.h"]]
          [File.create p "a.h", File.create p "b.cpp"]).GetCppFiles
      = [File.create p "b.cpp"] := by
    simp [Folder.GetCppFiles, GetCppFilesLoop, cppFilesOf, CPP_FILE_EXTENSION,
      extension_create p, extension_create (p ++ "\\sub"), e1, e2, e3]
  have hne : p ++ "\\sub" ≠ "" := by
    intro h0
    have := congrArg String.data h0
    simp at this
  have hrel : ∀ n : String, (File.create p n).RelativePath
      = if p = "" then n else p ++ ("\\" ++ n) := fun n => by
    unfold File.create
    split
    · rfl
    · simp only [PATH_SEPARATOR, String.append_assoc]
  have hrelsub : (File.create (p ++ "\\sub") "c.h").RelativePath = p ++ "\\sub\\c.h" := by
    simp only [File.create, hne, if_false, PATH_SEPARATOR, String.append_assoc]
    rfl
  have hrelmain : (File.create "" (project_name ++ ".cpp")).RelativePath
      = project_name ++ ".cpp" := by
    simp [File.create]
  have htext : ProjectFile.Write project_name
        [File.create p "a.h", File.create (p ++ "\\sub") "c.h"]
        [File.create p "b.cpp", File.create "" (project_name ++ ".cpp")] ""
      = writeLines ProjectFile.beforeHeadersLines
          ++ ("    <ClInclude Include=\""
              ++ (if p = "" then "a.h" else p ++ "\\a.h") ++ "\" />" ++ "\n")
          ++ ("    <ClInclude Include=\"" ++ (p ++ "\\sub\\c.h") ++ "\" />" ++ "\n")
          ++ writeLines ["  </ItemGroup>", "  <ItemGroup>"]
          ++ ("    <ClCompile Include=\""
              ++ (if p = "" then "b.cpp" else p ++ "\\b.cpp") ++ "\" />" ++ "\n")
          ++ ("    <ClCompile Include=\"" ++ (project_name ++ ".cpp") ++ "\" />" ++ "\n")
          ++ writeLines (ProjectFile.remainderLines project_name) := by
    rw [ProjectFile_Write_eq]
    simp only [List.map_cons, List.map_nil, join_cons, ProjectFile.ClIncludeLine,
      ProjectFile.ClCompileLine, hrel, hrelsub, hrelmain, endl, String.append_assoc]
    simp only [String.join, List.foldl_nil, String.append_empty, String.empty_append]
    rfl
  refine ⟨_, hget, hh, ?_, hc, ?_, ?_, ?_, ?_⟩
  · rw [hh]
    simp only [List.map_cons, List.map_nil, hrel, hrelsub]
    rfl
  · rw [hc]
    simp only [List.map_cons, List.map_nil, hrel]
    rfl
  · simp only [main, hget, List.getElem?_cons_succ, List.getElem?_cons_zero]
    refine ⟨_, rfl, rfl, ?_, ?_⟩
    · simp [CPP_FILE_EXTENSION]
    · simp only [hh, hc, CPP_FILE_EXTENSION, List.cons_append, List.nil_append, htext,
        List.mem_cons, Prod.mk.injEq]
      right; left
      exact ⟨rfl, trivial⟩
  · decide
  · simp [ProjectFile.remainderLines, startsWith]

/-- C9 (witness): the scan of `code` in the example file system. -/
theorem main_scenario_witness :
    scenarioFs ("code" ++ "\\*")
        = [⟨".", FILE_ATTRIBUTE_DIRECTORY⟩, ⟨"..", FILE_ATTRIBUTE_DIRECTORY⟩,
          ⟨"a.h", FILE_ATTRIBUTE_ARCHIVE⟩, ⟨"b.cpp", FILE_ATTRIBUTE_ARCHIVE⟩,
          ⟨"sub", FILE_ATTRIBUTE_DIRECTORY⟩]
      ∧ scenarioFs ("code" ++ "\\sub\\*")
        = [⟨".", FILE_ATTRIBUTE_DIRECTORY⟩, ⟨"..", FILE_ATTRIBUTE_DIRECTORY⟩,
          ⟨"c.h", FILE_ATTRIBUTE_ARCHIVE⟩]
      ∧ ∃ T : Folder, Folder.Get scenarioFs (0 + 2) "code" = some T
        ∧ T.GetHeaderFiles = [File.create "code" "a.h", File.create ("code" ++ "\\sub") "c.h"]
        ∧ T.GetHeaderFiles.map File.RelativePath
            = [if "code" = "" then "a.h" else "code" ++ "\\a.h", "code" ++ "\\sub\\c.h"]
        ∧ T.GetCppFiles = [File.create "code" "b.cpp"]
        ∧ T.GetCppFiles.map File.RelativePath = [if "code" = "" then "b.cpp" else "code" ++ "\\b.cpp"]
        ∧ (∃ r : MainResult, main scenarioFs (0 + 2) ["GenerateProject.exe", "Game", "code"] = some r
            ∧ r.header_files = T.GetHeaderFiles
            ∧ r.cpp_files = T.GetCppFiles ++ [File.create "" ("Game" ++ ".cpp")]
            ∧ ("Game" ++ ".vcxproj",
                writeLines ProjectFile.beforeHeadersLines
                  ++ ("    <ClInclude Include=\""
                      ++ (if "code" = "" then "a.h" else "code" ++ "\\a.h") ++ "\" />" ++ "\n")
                  ++ ("    <ClInclude Include=\"" ++ ("code" ++ "\\sub\\c.h") ++ "\" />" ++ "\n")
                  ++ writeLines ["  </ItemGroup>", "  <ItemGroup>"]
                  ++ ("    <ClCompile Include=\""
                      ++ (if "code" = "" then "b.cpp" else "code" ++ "\\b.cpp") ++ "\" />" ++ "\n")
                  ++ ("    <ClCompile Include=\"" ++ ("Game" ++ ".cpp") ++ "\" />" ++ "\n")
                  ++ writeLines (ProjectFile.remainderLines "Game")) ∈ r.files)
        ∧ ProjectFile.beforeHeadersLines.filter (fun line =>
              startsWith line "    <ClInclude Include="
                || startsWith line "    <ClCompile Include=") = []
        ∧ (ProjectFile.remainderLines "Game").filter (fun line =>
              startsWith line "    <ClInclude Include="
                || startsWith line "    <ClCompile Include=") = [] :=
  ⟨by decide, by decide,
    main_scenario scenarioFs 0 "GenerateProject.exe" "Game" "code" (by decide) (by decide)⟩

end GenerateProject
